import Mathlib

/-!
Verification of the `hal` terminal agent (Rust) against its natural-language
specification.  The Rust sources under `src/` are shallowly embedded below:
pure functions become Lean functions, the `App` controller becomes an explicit
state record with a step function over events, and all I/O (file system, HTTP,
clock, channels) is passed in as explicit environment data.  External crates
(`serde_json`, `similar`, `ignore`, `chrono`) are modelled at their interface:
JSON arguments are represented already parsed, and the line-diff computed by
the `similar` crate is modelled by a minimal longest-common-subsequence diff.
-/

namespace Hal

/-! ## Generic list/string helpers (models of Rust `str` operations) -/

/-- Fuel-driven scan for `countOccs`; every scheduled call consumes at least
one list element, so `l.length` fuel is always enough. -/
def countOccsFuel [DecidableEq α] (pat : List α) : Nat → List α → Nat
  | _, [] => 0
  | 0, _ :: _ => 0
  | fuel + 1, a :: l =>
    if pat ≠ [] ∧ pat.isPrefixOf (a :: l) then
      1 + countOccsFuel pat fuel ((a :: l).drop pat.length)
    else
      countOccsFuel pat fuel l

/-- Number of non-overlapping occurrences of `pat` in `l`, scanning from the
left; model of Rust `str::matches(pat).count()` for a non-empty pattern. -/
def countOccs [DecidableEq α] (pat l : List α) : Nat :=
  countOccsFuel pat l.length l

/-- Replace the first occurrence of `pat` by `rep`; model of Rust
`str::replacen(pat, rep, 1)` for a non-empty pattern. -/
def replaceFirst [DecidableEq α] (pat rep : List α) : List α → List α
  | [] => []
  | a :: l =>
    if pat ≠ [] ∧ pat.isPrefixOf (a :: l) then
      rep ++ (a :: l).drop pat.length
    else
      a :: replaceFirst pat rep l

/-- Fuel-driven scan for `replaceAll`; `l.length` fuel is always enough. -/
def replaceAllFuel [DecidableEq α] (pat rep : List α) : Nat → List α → List α
  | _, [] => []
  | 0, a :: l => a :: l
  | fuel + 1, a :: l =>
    if pat ≠ [] ∧ pat.isPrefixOf (a :: l) then
      rep ++ replaceAllFuel pat rep fuel ((a :: l).drop pat.length)
    else
      a :: replaceAllFuel pat rep fuel l

/-- Replace every (non-overlapping) occurrence of `pat` by `rep`; model of
Rust `str::replace` for a non-empty pattern. -/
def replaceAll [DecidableEq α] (pat rep l : List α) : List α :=
  replaceAllFuel pat rep l.length l

/-- `pat` occurs somewhere in `l` (substring test); model of Rust
`str::contains`. -/
def listContainsSub [DecidableEq α] (pat : List α) : List α → Bool
  | [] => pat.isPrefixOf ([] : List α)
  | a :: l => pat.isPrefixOf (a :: l) || listContainsSub pat l

/-- Model of Rust `str::contains` (substring). -/
def strContains (s pat : String) : Bool := listContainsSub pat.data s.data

/-- Model of Rust `str::replace` on `String`s (all occurrences, non-empty
pattern; for the empty pattern the Rust behaviour is never exercised by the
embedded code, which guards against it). -/
def strReplace (s pat rep : String) : String :=
  if pat = "" then s else ⟨replaceAll pat.data rep.data s.data⟩

/-- Split on a separator character, keeping empty pieces (character-level
model of `String.splitOn` with a one-character separator). -/
def splitOnCharAux (sep : Char) : List Char → List Char → List String
  | [], cur => [⟨cur.reverse⟩]
  | c :: rest, cur =>
    if c = sep then (⟨cur.reverse⟩ : String) :: splitOnCharAux sep rest []
    else splitOnCharAux sep rest (c :: cur)

/-- String version of `splitOnCharAux`. -/
def splitOnChar (sep : Char) (s : String) : List String := splitOnCharAux sep s.data []

/-- Character-level model of Rust `str::starts_with` on string patterns. -/
def strStartsWith (s pre : String) : Bool := pre.data.isPrefixOf s.data

/-- Character-level model of Rust `str::trim` (and of the trimming the
embedded code performs). -/
def trimChars (s : String) : String :=
  ⟨((s.data.dropWhile Char.isWhitespace).reverse.dropWhile Char.isWhitespace).reverse⟩

/-- Drop the first `n` characters (model of the byte slices/`drop` the
embedded code performs on ASCII prefixes). -/
def strDrop (s : String) (n : Nat) : String := ⟨s.data.drop n⟩

/-- Character-level model of Rust `str::to_lowercase` (simple per-character
mapping). -/
def strToLower (s : String) : String := ⟨s.data.map Char.toLower⟩

/-- UTF-8 byte length (model of Rust `str::len`). -/
def utf8Len (s : String) : Nat := s.data.foldl (fun n c => n + c.utf8Size) 0

/-- Model of Rust `str::lines`: split at `\n`, drop a final empty piece caused
by a trailing newline, strip a trailing `\r` from each line. -/
def rustLines (s : String) : List String :=
  if s = "" then []
  else
    let parts := splitOnChar '\n' s
    let parts := if parts.getLast? = some "" then parts.dropLast else parts
    parts.map fun p => if p.data.getLast? = some '\r' then (⟨p.data.dropLast⟩ : String) else p

/-- Split a string into the lines of Rust's `similar::TextDiff::from_lines`:
every element keeps its trailing `\n` except possibly the last. -/
def splitKeepNl (s : String) : List String :=
  go s.data []
where
  go : List Char → List Char → List String
    | [], cur => if cur = [] then [] else [⟨cur.reverse⟩]
    | '\n' :: rest, cur => (⟨(cur.reverse ++ ['\n'] : List Char)⟩ : String) :: go rest []
    | c :: rest, cur => go rest (c :: cur)

/-- Accumulating loop for `splitWhitespace`. -/
def splitWsAux : List Char → List Char → List String
  | [], cur => if cur = [] then [] else [⟨cur.reverse⟩]
  | c :: rest, cur =>
    if c.isWhitespace then
      if cur = [] then splitWsAux rest []
      else (⟨cur.reverse⟩ : String) :: splitWsAux rest []
    else splitWsAux rest (c :: cur)

/-- Model of Rust `str::split_whitespace`: maximal runs of non-whitespace. -/
def splitWhitespace (s : String) : List String := splitWsAux s.data []

/-! ## Picker filter (src/app.rs `filter_items`, claim C9) -/

/-- The maximum number of picker items (src/app.rs `MAX_PICKER_ITEMS`). -/
def MAX_PICKER_ITEMS : Nat := 10

/-- The peekable-iterator loop inside `filter_items`: walk the item characters
and consume the head of the query whenever it matches; returns the unconsumed
query characters. -/
def consumeQuery : List Char → List Char → List Char
  | qs, [] => qs
  | [], _ :: cs => consumeQuery [] cs
  | q :: qs', c :: cs =>
    if q = c then consumeQuery qs' cs else consumeQuery (q :: qs') cs

/-- The per-item subsequence check of `filter_items`: after walking the item,
the whole query must have been consumed. -/
def subseqMatch (q item : String) : Bool :=
  (consumeQuery q.data item.data).isEmpty

/-- Model of src/app.rs `filter_items`: keep items whose lower-cased form has
the lower-cased query as a subsequence, first `max` of them. -/
def filter_items (items : List String) (query : String) (max : Nat) : List String :=
  let queryLower := strToLower query
  (items.filter fun item =>
    if queryLower = "" then true
    else subseqMatch queryLower (strToLower item)).take max

/-! ## Tool executors (src/tools.rs)

File-system reads and writes are passed in explicitly: a read is an
`Except String String` (the result of `fs::read_to_string`), a write is
reported in the second component of the result (`none` when nothing was
written before the function returned). -/

/-- Number the lines of a selected slice as in `tool_read_file`:
`"<n>: <line>"` with `n = startIdx + i + 1`. -/
def renderNumbered (ls : List String) (startIdx : Nat) : String :=
  String.intercalate "\n" (ls.enum.map fun p => toString (startIdx + p.1 + 1) ++ ": " ++ p.2)

/-- Model of src/tools.rs `tool_read_file`.  The result is `none` exactly when
the Rust code would panic (slice `lines[start_idx..end_idx]` with
`end_idx < start_idx`), otherwise `some` of the returned string. -/
def tool_read_file (path : String) (startLine endLine : Option Nat)
    (read : Except String String) : Option String :=
  if path = "" then some "Error: path is required"
  else
    match read with
    | .error e => some ("Error reading file: " ++ e)
    | .ok content =>
      match startLine, endLine with
      | some s, some e =>
        let lines := rustLines content
        let startIdx := s - 1
        let endIdx := min e lines.length
        if startIdx ≥ lines.length then
          some ("Error: start_line " ++ toString s ++ " exceeds file length ("
            ++ toString lines.length ++ ")")
        else if endIdx < startIdx then none
        else some (renderNumbered ((lines.drop startIdx).take (endIdx - startIdx)) startIdx)
      | some s, none =>
        let lines := rustLines content
        let startIdx := s - 1
        if startIdx ≥ lines.length then
          some ("Error: start_line " ++ toString s ++ " exceeds file length ("
            ++ toString lines.length ++ ")")
        else some (renderNumbered (lines.drop startIdx) startIdx)
      | none, some e =>
        let lines := rustLines content
        some (renderNumbered (lines.take (min e lines.length)) 0)
      | none, none => some content

/-- Model of src/tools.rs `tool_edit_file`.  Returns the result string and the
content written to the file (`none` when no write happened). -/
def tool_edit_file (path old new : String) (read : Except String String)
    (writeErr : Option String) : String × Option String :=
  if path = "" then ("Error: path is required", none)
  else if old = "" then ("Error: old text is required", none)
  else
    match read with
    | .error e => ("Error reading file: " ++ e, none)
    | .ok content =>
      let count := countOccs old.data content.data
      if count = 0 then ("Error: text not found in " ++ path, none)
      else if count > 1 then
        ("Error: text appears " ++ toString count ++ " times in " ++ path
          ++ " - be more specific", none)
      else
        let updated : String := ⟨replaceFirst old.data new.data content.data⟩
        match writeErr with
        | some e => ("Error writing file: " ++ e, none)
        | none =>
          ("Edited " ++ path ++ "\n"
            ++ String.join ((rustLines old).map fun l => "-" ++ l ++ "\n")
            ++ String.join ((rustLines new).map fun l => "+" ++ l ++ "\n"),
           some updated)

/-! ### Line diffs (model of the external `similar` crate)

`similar::TextDiff::from_lines` is modelled by a minimal
longest-common-subsequence line diff; line values keep their trailing
newline as in `similar`. -/

/-- Tag of one diff change. -/
inductive DTag
  | equal
  | del
  | ins
deriving DecidableEq, Repr

/-- One change of a line diff: tag, the indices of the line in the old and the
new text (as produced by `similar`), and the line text itself. -/
structure DChange where
  tag : DTag
  oldIndex : Option Nat
  newIndex : Option Nat
  value : String
deriving DecidableEq, Repr

/-- Number of non-`equal` entries of a raw diff (used to pick the smaller of
two candidate scripts). -/
def editCount : List (DTag × String) → Nat
  | [] => 0
  | (DTag.equal, _) :: r => editCount r
  | (_, _) :: r => 1 + editCount r

/-- Fuel-driven minimal-edit line diff; `o.length + n.length` fuel is always
enough. -/
def diffRawFuel : Nat → List String → List String → List (DTag × String)
  | _, [], [] => []
  | 0, _, _ => []
  | fuel + 1, [], b :: bs => (DTag.ins, b) :: diffRawFuel fuel [] bs
  | fuel + 1, a :: xs, [] => (DTag.del, a) :: diffRawFuel fuel xs []
  | fuel + 1, a :: xs, b :: ys =>
    if a = b then (DTag.equal, a) :: diffRawFuel fuel xs ys
    else
      let d1 := (DTag.del, a) :: diffRawFuel fuel xs (b :: ys)
      let d2 := (DTag.ins, b) :: diffRawFuel fuel (a :: xs) ys
      if editCount d1 ≤ editCount d2 then d1 else d2

/-- Minimal-edit line diff (longest common subsequence). -/
def diffRaw (o n : List String) : List (DTag × String) :=
  diffRawFuel (o.length + n.length) o n

/-- Attach old/new line indices to a raw diff script. -/
def addIndices : List (DTag × String) → Nat → Nat → List DChange
  | [], _, _ => []
  | (DTag.equal, v) :: rest, oi, ni => ⟨DTag.equal, some oi, some ni, v⟩ :: addIndices rest (oi + 1) (ni + 1)
  | (DTag.del, v) :: rest, oi, ni => ⟨DTag.del, some oi, none, v⟩ :: addIndices rest (oi + 1) ni
  | (DTag.ins, v) :: rest, oi, ni => ⟨DTag.ins, none, some ni, v⟩ :: addIndices rest oi (ni + 1)

/-- The change list of `similar::TextDiff::from_lines(old, new)`. -/
def diffChanges (old new : String) : List DChange :=
  addIndices (diffRaw (splitKeepNl old) (splitKeepNl new)) 0 0

/-- Model of src/tools.rs `format_diff`: plain `-`/`+` lines only (equal lines
skipped), headed by `"Wrote <path>"`. -/
def format_diff (path old new : String) : String :=
  if old = new then "No changes to " ++ path
  else
    "Wrote " ++ path ++ "\n"
      ++ String.join ((diffChanges old new).filterMap fun ch =>
        match ch.tag with
        | DTag.equal => none
        | DTag.del => some ("-" ++ ch.value)
        | DTag.ins => some ("+" ++ ch.value))

/-- Right-aligned 4-wide line number, Rust format `{:>4}` (the brace form is
written out here as padding). -/
def padNum4 (n : Nat) : String :=
  let s := toString n
  (⟨List.replicate (4 - s.length) ' '⟩ : String) ++ s

/-- Is the change an `equal` change? -/
def DChange.isEqual : DChange → Bool
  | ⟨DTag.equal, _, _, _⟩ => true
  | _ => false

/-- One output line of `format_diff_with_context`:
`<marker><line_num_4_chars>│<value>` plus a newline when the value is missing
its own. -/
def formatChangeLine (ch : DChange) : String :=
  let mk := fun (marker : String) (num : Nat) =>
    marker ++ padNum4 num ++ "│" ++ ch.value ++ (if ch.value.data.getLast? = some '\n' then "" else "\n")
  match ch.tag with
  | DTag.equal => mk " " (ch.newIndex.getD 0 + 1)
  | DTag.del => mk "-" (ch.oldIndex.getD 0 + 1)
  | DTag.ins => mk "+" (ch.newIndex.getD 0 + 1)

/-- Split a change list into maximal runs of equal / non-equal changes. -/
def splitRuns : List DChange → List (Bool × List DChange)
  | [] => []
  | c :: cs =>
    match splitRuns cs with
    | [] => [(c.isEqual, [c])]
    | (b, run) :: rest =>
      if c.isEqual = b then (b, c :: run) :: rest
      else (c.isEqual, [c]) :: (b, run) :: rest

/-- Last `n` elements of a list. -/
def lastN (n : Nat) (l : List α) : List α := l.drop (l.length - n)

/-- Grouping loop of `similar`'s `grouped_ops(n)` at the granularity of
changes: each group keeps at most `n` context lines on either side, and an
interior equal run longer than `2 * n` splits two groups. -/
def groupsGo (n : Nat) : List (Bool × List DChange) → List DChange → Option (List DChange) →
    List (List DChange)
  | [], _, none => []
  | [], _, some g => [g]
  | (true, run) :: rest, _, none => groupsGo n rest (lastN n run) none
  | (true, run) :: rest, _, some g =>
    if rest = [] then [g ++ run.take n]
    else if run.length > 2 * n then (g ++ run.take n) :: groupsGo n rest (lastN n run) none
    else groupsGo n rest [] (some (g ++ run))
  | (false, run) :: rest, pending, none => groupsGo n rest [] (some (pending ++ run))
  | (false, run) :: rest, _, some g => groupsGo n rest [] (some (g ++ run))

/-- Model of `similar`'s `grouped_ops(n)`, flattened to changes. -/
def groupedChanges (n : Nat) (cs : List DChange) : List (List DChange) :=
  groupsGo n (splitRuns cs) [] none

/-- Model of src/tools.rs `format_diff_with_context`: unified diff with
3 lines of context, a line-number column and `···` hunk separators. -/
def format_diff_with_context (path action old new : String) : String :=
  let groups := groupedChanges 3 (diffChanges old new)
  action ++ " " ++ path ++ "\n"
    ++ String.join (groups.enum.map fun p =>
      (if p.1 > 0 then "···\n" else "") ++ String.join (p.2.map formatChangeLine))

/-- Model of src/tools.rs `tool_write_file`.  `fileExists` and `oldContent`
are the observed file-system state (`oldContent` is `""` when the read
failed), `mkdirErr`/`writeErr` the outcomes of `create_dir_all`/`fs::write`.
Returns the result string and the content written. -/
def tool_write_file (path content : String) (fileExists : Bool) (oldContent : String)
    (mkdirErr writeErr : Option String) : String × Option String :=
  if path = "" then ("Error: path is required", none)
  else
    let isNewFile := oldContent = "" ∧ fileExists = false
    match mkdirErr with
    | some e => ("Error creating directories: " ++ e, none)
    | none =>
      match writeErr with
      | some e => ("Error writing file: " ++ e, none)
      | none =>
        if isNewFile then
          ("Created " ++ path ++ "\n"
            ++ String.join ((rustLines content).map fun l => "+" ++ l ++ "\n"),
           some content)
        else (format_diff path oldContent content, some content)

/-- Model of src/tools.rs `preview_write_file`: same file-system observations
as `tool_write_file` but no write; returns `(diff_text, new_content)`. -/
def preview_write_file (path content : String) (fileExists : Bool) (oldContent : String) :
    Except String (String × String) :=
  if path = "" then .error "Error: path is required"
  else
    let isNew := oldContent = "" ∧ fileExists = false
    let diff :=
      if isNew then
        "Created " ++ path ++ "\n"
          ++ String.join ((rustLines content).enum.map fun p =>
            "+" ++ padNum4 (p.1 + 1) ++ "│" ++ p.2 ++ "\n")
      else if oldContent = content then "No changes to " ++ path
      else format_diff_with_context path "Wrote" oldContent content
    .ok (diff, content)

/-! ## Sandbox policy (src/sandbox.rs)

Disk state (the global and project `sandbox.json` files) and process
environment (home directory, `CARGO_HOME`, …) are passed in explicitly. -/

/-- A path the command likely needs, with the reason shown to the user. -/
structure PathRequest where
  path : String
  reason : String
deriving DecidableEq, Repr

/-- Process environment consulted by `detect_required_paths`: the home
directory (`dirs::home_dir`, with the `"~"` fallback applied) and the
optional `CARGO_HOME`/`RUSTUP_HOME`/`GOPATH`/`NVM_DIR` variables. -/
structure SandboxEnv where
  home : String
  cargoHome : Option String
  rustupHome : Option String
  gopath : Option String
  nvmDir : Option String
deriving DecidableEq, Repr

/-- Model of Rust `PathBuf::join` for the relative second components used by
the sandbox code. -/
def joinPath (a b : String) : String :=
  if a = "" then b else if a.data.getLast? = some '/' then a ++ b else a ++ "/" ++ b

/-- Model of src/sandbox.rs `detect_required_paths`: heuristic keyword scan of
the command string, one block per recognized toolchain. -/
def detect_required_paths (env : SandboxEnv) (command : String) : List PathRequest :=
  let home := env.home
  let rust :=
    if strContains command "cargo" || strContains command "rustc" || strContains command "rustup" then
      [⟨env.cargoHome.getD (joinPath home ".cargo"),
        "Cargo needs access to ~/.cargo for toolchain and crates"⟩,
       ⟨env.rustupHome.getD (joinPath home ".rustup"),
        "Rust needs access to ~/.rustup for toolchain"⟩]
    else []
  let node :=
    if strContains command "npm" || strContains command "yarn" || strContains command "pnpm"
        || strContains command "node" || strContains command "npx" then
      [⟨joinPath home ".npm", "npm needs access to ~/.npm for cache"⟩,
       ⟨joinPath home ".node", "Node needs access to ~/.node"⟩]
        ++ (match env.nvmDir with
          | some dir => [⟨dir, "Node version manager directory"⟩]
          | none => [⟨joinPath home ".nvm", "nvm needs access to ~/.nvm"⟩])
    else []
  let go :=
    if strStartsWith command "go " || strContains command " go " then
      [⟨env.gopath.getD (joinPath home "go"), "Go needs access to GOPATH"⟩]
    else []
  let python :=
    if strContains command "python" || strContains command "pip"
        || strContains command "poetry" || strContains command "uv" then
      [⟨joinPath home ".local", "Python tools often install to ~/.local"⟩,
       ⟨joinPath home ".cache/pip", "pip cache directory"⟩,
       ⟨joinPath home ".cache/uv", "uv cache directory"⟩]
    else []
  let brew :=
    if strContains command "brew" then
      [⟨"/opt/homebrew", "Homebrew installation directory"⟩,
       ⟨"/usr/local", "Homebrew installation directory (Intel Mac)"⟩]
    else []
  let git :=
    if strContains command "git" then
      [⟨joinPath home ".gitconfig", "Git configuration file"⟩,
       ⟨joinPath home ".ssh", "SSH keys for git authentication"⟩]
    else []
  rust ++ node ++ go ++ python ++ brew ++ git

/-- The component list of a path as produced by Rust `Path::components`:
a root marker for absolute paths, empty components and interior `.` dropped,
a leading `.` of a relative path kept. -/
def pathComponents (s : String) : List String :=
  let parts := (splitOnChar '/' s).filter (fun c => c ≠ "")
  if strStartsWith s "/" then "/" :: parts.filter (fun c => c ≠ ".")
  else
    match parts with
    | "." :: rest => "." :: rest.filter (fun c => c ≠ ".")
    | _ => parts.filter (fun c => c ≠ ".")

/-- Model of Rust `Path::starts_with`: component-wise prefix. -/
def rustPathStartsWith (p base : String) : Bool :=
  (pathComponents base).isPrefixOf (pathComponents p)

/-- The per-entry match of `get_missing_paths_for_command`:
`req_path.starts_with(allowed) || allowed.starts_with(req_path)`. -/
def pathSatisfies (reqPath allowed : String) : Bool :=
  rustPathStartsWith reqPath allowed || rustPathStartsWith allowed reqPath

/-- Model of src/sandbox.rs `SandboxConfig::load_merged`: the union of the
global and project allow-lists (the source collects them into a `HashSet`;
only membership is ever consumed). -/
def load_merged (globalPaths projectPaths : List String) : List String :=
  (globalPaths ++ projectPaths).dedup

/-- Model of src/app.rs `App::get_missing_paths_for_command`: detected
requests not matched by any merged-config or ephemeral allow entry.
`merged` is the allow-list read from disk at this moment. -/
def get_missing_paths_for_command (merged temp : List String) (senv : SandboxEnv)
    (command : String) : List PathRequest :=
  (detect_required_paths senv command).filter fun req =>
    !(merged.any fun allowed => pathSatisfies req.path allowed)
      && !(temp.any fun allowed => pathSatisfies req.path allowed)

/-- Model of src/sandbox.rs `expand_path`: `~/`-prefixed paths are joined onto
the home directory when one is known. -/
def expand_path (home : Option String) (p : String) : String :=
  if strStartsWith p "~/" then
    match home with
    | some h => joinPath h (strDrop p 2)
    | none => p
  else p

/-- Model of src/sandbox.rs `add_path_global` / `add_path_project` on the
in-file allow-list: store the `~`-expanded entry unless already present. -/
def add_path (home : Option String) (p : String) (cfg : List String) : List String :=
  let expanded := expand_path home p
  if expanded ∈ cfg then cfg else cfg ++ [expanded]

/-! ## Agent turn controller (src/app.rs, src/session.rs, src/config.rs)

The `App` struct becomes an explicit state record and each controller method
a function on it.  Everything the Rust code obtains from the outside world —
clock, file system, HTTP results delivered on channels, the sandbox config on
disk — is event/environment data.  Tool-call arguments travel through the
source as raw JSON strings re-parsed with `serde_json` at each use; the model
represents them already parsed as a string-keyed record of primitives (the
only shapes the code ever reads). -/

/-- A primitive JSON argument value. -/
inductive JPrim
  | jstr (s : String)
  | jnum (n : Int)
deriving DecidableEq, Repr

/-- Parsed tool-call arguments object. -/
abbrev JArgs := List (String × JPrim)

/-- Model of `json["k"].as_str()` on an arguments object. -/
def argsGetStr (a : JArgs) (k : String) : Option String :=
  match a.find? (fun kv => kv.1 == k) with
  | some (_, JPrim.jstr s) => some s
  | _ => none

/-- A tool call extracted from the model response: `(id, name, arguments)`. -/
structure ToolCall where
  id : String
  name : String
  args : JArgs
deriving DecidableEq, Repr

/-- A wire message (the JSON records sent to the chat API). -/
inductive Wire
  | system (content : String)
  | user (content : String)
  | assistant (content : String)
  | assistantToolCalls (toolCalls : List ToolCall)
  | toolResult (toolCallId : String) (content : String)
deriving DecidableEq, Repr

/-- Role of a UI chat message (src/app.rs `MessageRole`). -/
inductive MessageRole
  | User
  | Assistant
  | Tool (name : String) (path : Option String)
deriving DecidableEq, Repr

/-- A UI chat message (src/app.rs `ChatMessage`). -/
structure ChatMessage where
  role : MessageRole
  content : String
deriving DecidableEq, Repr

/-- A persistable session snapshot (src/session.rs `Session`). -/
structure Session where
  id : String
  created_at : Int
  updated_at : Int
  title : String
  messages : List ChatMessage
  api_messages : List Wire
deriving DecidableEq, Repr

/-- Model of src/session.rs `Session::new` at clock value `now`. -/
def Session.new (now : Int) : Session :=
  { id := toString now, created_at := now, updated_at := now, title := ""
    messages := [], api_messages := [] }

/-- Provider record (src/config.rs `Provider`). -/
structure Provider where
  base_url : String
  model : String
  api_key_env : String
  api_key : Option String
deriving DecidableEq, Repr

/-- Agent mode (src/config.rs `Mode`). -/
inductive Mode
  | Coding
  | Coach
deriving DecidableEq, Repr

/-- Main configuration (src/config.rs `Config`; the provider `HashMap` is
modelled as an association list). -/
structure Config where
  default_provider : String
  mode : Mode
  providers : List (String × Provider)
deriving DecidableEq, Repr

/-- Model of `config.providers.get(name)`. -/
def lookupProvider (providers : List (String × Provider)) (name : String) : Option Provider :=
  (providers.find? (fun kv => kv.1 == name)).map (fun kv => kv.2)

/-- Model of mutating `config.providers.get_mut(name)` to `p`. -/
def updateProvider (providers : List (String × Provider)) (name : String) (p : Provider) :
    List (String × Provider) :=
  providers.map (fun kv => if kv.1 == name then (kv.1, p) else kv)

/-- Permission modal state (src/app.rs `PermissionModal`). -/
structure PermissionModal where
  path : String
  reason : String
  options : List String
  selected : Nat
  pending_tool_id : String
deriving DecidableEq, Repr

/-- Model of src/app.rs `PermissionModal::new`. -/
def PermissionModal.new (path reason toolId : String) : PermissionModal :=
  { path := path, reason := reason
    options := ["Allow for project", "Allow globally", "Allow once", "Deny"]
    selected := 0, pending_tool_id := toolId }

/-- Controller state (src/app.rs `AppState`). -/
inductive AppState
  | Idle
  | Thinking
  | ToolCall (label : String)
deriving DecidableEq, Repr

/-- The data captured by the spawned tool worker and delivered with its
result over the channel (src/app.rs `ToolExecutionResult` minus the computed
result string, which arrives as event data). -/
structure InflightTool where
  id : String
  name : String
  path : Option String
deriving DecidableEq, Repr

/-- The controller state record (src/app.rs `App`).  The channel receivers
`pending_response`/`pending_tool_execution` are modelled by their presence
(the delivered value is event data); `tool_defs` (wire-level schemas) and the
picker/scroll fields not touched by the modelled events are omitted. -/
structure App where
  config : Config
  input : String
  input_cursor : Nat
  messages : List ChatMessage
  api_messages : List Wire
  state : AppState
  history : List String
  history_pos : Nat
  should_quit : Bool
  error : Option String
  token_usage : Option (Nat × Nat)
  permission_modal : Option PermissionModal
  temp_allowed_paths : List String
  api_key : String
  provider : Provider
  pending_response : Bool
  pending_tool_calls : List ToolCall
  pending_tool_execution : Option InflightTool
  session : Session
  cancel_flag : Bool
deriving DecidableEq, Repr

/-! ### Reference expansion (src/app.rs `expand_file_refs`, claim C7) -/

/-- The `@`-token test of `expand_file_refs`:
`word.starts_with('@') && word.len() > 1`, returning `&word[1..]`. -/
def tokenPath (w : String) : Option String :=
  match w.data with
  | c :: rest => if c = '@' ∧ rest ≠ [] then some ⟨rest⟩ else none
  | [] => none

/-- The `<file path="…">…</file>` block appended to the wire content for one
attached file. -/
def fileBlock (path content : String) : String :=
  "\n\n<file path=\"" ++ path ++ "\">\n" ++ trimChars content ++ "\n</file>"

/-- One iteration of the `expand_file_refs` loop.  The accumulator carries
`(result_text, files_content, files_read)`; `fs p` is `some content` when `p`
exists, is a file, and reads successfully. -/
def expandStep (fs : String → Option String)
    (acc : String × List String × List (String × Nat)) (word : String) :
    String × List String × List (String × Nat) :=
  match tokenPath word with
  | none => acc
  | some p =>
    match fs p with
    | none => acc
    | some content =>
      (strReplace acc.1 word ("`" ++ p ++ "`"),
       acc.2.1 ++ [fileBlock p content],
       acc.2.2 ++ [(p, (rustLines content).length)])

/-- The full accumulator of the `expand_file_refs` loop over the
whitespace-split tokens of the input. -/
def expandAcc (fs : String → Option String) (input : String) :
    String × List String × List (String × Nat) :=
  (splitWhitespace input).foldl (expandStep fs) (input, [], [])

/-- Result of reference expansion (src/app.rs `ExpandedInput`). -/
structure ExpandedInput where
  text : String
  files_read : List (String × Nat)
deriving DecidableEq, Repr

/-- Model of src/app.rs `expand_file_refs`. -/
def expand_file_refs (fs : String → Option String) (input : String) : ExpandedInput :=
  let acc := expandAcc fs input
  { text := if acc.2.1 = [] then acc.1 else acc.1 ++ String.join acc.2.1
    files_read := acc.2.2 }

/-- The wire file block contributed by one whitespace token, when it resolves
to a readable file (used to state what `expand_file_refs` accumulates). -/
def blockOf (fs : String → Option String) (w : String) : Option String :=
  match tokenPath w with
  | some p => (fs p).map (fun c => fileBlock p c)
  | none => none

/-- The `files_read` entry contributed by one whitespace token. -/
def readOf (fs : String → Option String) (w : String) : Option (String × Nat) :=
  match tokenPath w with
  | some p => (fs p).map (fun c => (p, (rustLines c).length))
  | none => none

/-! ### Controller operations -/

/-- First characters of `s` fitting in `n` bytes; model of the byte slice
`&s[..n]` under the boundary assumption the source relies on. -/
def takeBytesAux : List Char → Nat → List Char
  | [], _ => []
  | c :: cs, n => if c.utf8Size ≤ n then c :: takeBytesAux cs (n - c.utf8Size) else []

/-- String version of `takeBytesAux`. -/
def takeBytes (s : String) (n : Nat) : String := ⟨takeBytesAux s.data n⟩

/-- Model of src/app.rs `format_tool_call` (the human label of a running
tool). -/
def format_tool_call (name : String) (args : JArgs) : String :=
  match name with
  | "read_file" => "read " ++ (argsGetStr args "path").getD "?"
  | "write_file" => "write " ++ (argsGetStr args "path").getD "?"
  | "list_dir" => "ls " ++ (argsGetStr args "path").getD "."
  | "search_files" =>
    "search " ++ (argsGetStr args "pattern").getD "*" ++ " in " ++ (argsGetStr args "path").getD "."
  | "bash" =>
    let cmd := (argsGetStr args "command").getD "?"
    if utf8Len cmd > 40 then "$ " ++ takeBytes cmd 40 ++ "..." else "$ " ++ cmd
  | "view_projects" => "view projects"
  | "update_projects" => "update projects"
  | _ => name

/-- Model of src/app.rs `get_system_prompt`. -/
def get_system_prompt (m : Mode) : String :=
  match m with
  | Mode.Coding =>
    "You are a coding agent with file access. Be concise. Use grep to locate code, then read specific line ranges when needed. When you complete a task using tools, briefly state what you did and stop. The user can see all tool outputs including file diffs, so never repeat code in markdown blocks after writing files. For build commands (cargo build, npm run, etc.), use `2>&1 | tail -30` by default. If you need to find specific errors in verbose output, use `2>&1 | grep -i error` instead."
  | Mode.Coach =>
    "You are a productivity coach. Track projects in projects.md. Give practical advice and encouragement."

/-- Model of src/app.rs `HELP_TEXT`. -/
def HELP_TEXT : String :=
  "**Commands:**\n- `/clear` - Save and start new session\n- `/sessions` - List saved sessions\n- `/load <id>` - Load a saved session\n- `/provider` - List providers\n- `/provider <name>` - Switch provider\n- `/key <key>` - Set API key for current provider\n- `/quit` - Exit (also /exit, /q)\n- `/help` - Show this help\n\n**File references:**\n- `@` - Type @ to open file picker\n- `Tab/Enter` - Select file from picker\n- `Esc` - Cancel picker\n\n**Navigation:**\n- `↑/↓` - History / picker navigation\n- `Ctrl+U/D` - Scroll chat history"

/-- Is this chat message a user message? -/
def ChatMessage.isUser (m : ChatMessage) : Bool :=
  match m.role with
  | MessageRole.User => true
  | _ => false

/-- The lazy session title of `save_session`: first 50 characters of the first
user message, trimmed, with `"..."` appended when the message is longer than
50 bytes (the source compares the byte length). -/
def deriveTitle (messages : List ChatMessage) : String :=
  match messages.find? ChatMessage.isUser with
  | none => ""
  | some first =>
    let t := trimChars (String.mk (first.content.data.take 50))
    if utf8Len first.content > 50 then t ++ "..." else t

/-- Model of src/app.rs `App::save_session` at clock value `now`.  Returns the
updated app and the session written to disk (`none`: nothing written). -/
def save_session (now : Int) (s : App) : App × Option Session :=
  if s.messages = [] then (s, none)
  else
    let title := if s.session.title = "" then deriveTitle s.messages else s.session.title
    let sess : Session :=
      { s.session with
        updated_at := now, messages := s.messages,
        api_messages := s.api_messages, title := title }
    ({ s with session := sess }, some sess)

/-- Model of src/app.rs `App::start_api_call`: reset the cancel flag and
install a fresh response channel (the spawned HTTP worker delivers through
the `pollApi` event). -/
def start_api_call (s : App) : App :=
  { s with cancel_flag := false, pending_response := true }

/-- Environment data consumed by `submit_input`: the clock, the file system
for `@`-reference expansion, the saved-session directory, `Session::load`,
`std::env::var` for API keys, and the `chrono` date formatter. -/
structure SubmitEnv where
  now : Int
  fs : String → Option String
  sessions : List Session
  loadSession : String → Except String Session
  envKey : String → Option String
  fmtDate : Int → String

/-- The `/sessions` listing text. -/
def sessionListMessage (env : SubmitEnv) : String :=
  if env.sessions = [] then "No saved sessions."
  else
    let items := (env.sessions.take 10).map fun sess =>
      let title := if sess.title = "" then "(untitled)" else sess.title
      "**" ++ sess.id ++ "** - " ++ title ++ " (" ++ env.fmtDate sess.updated_at ++ ")"
    "**Saved sessions:**\n" ++ String.intercalate "\n" items

/-- The `/provider` listing text. -/
def providerListMessage (cfg : Config) : String :=
  let names := (cfg.providers.map (fun kv => kv.1)).mergeSort (fun a b => a ≤ b)
  let items := names.map fun n =>
    if n = cfg.default_provider then "- **" ++ n ++ "** (active)" else "- " ++ n
  "**Providers:**\n" ++ String.intercalate "\n" items ++ "\n\nSwitch with `/provider <name>`"

/-- Model of src/app.rs `App::submit_input`.  Returns the updated app and any
session written to disk by a `save_session` on the way. -/
def submit_input (env : SubmitEnv) (s : App) : App × Option Session :=
  let input := trimChars s.input
  if input = "" then (s, none)
  else if input = "/quit" ∨ input = "/exit" ∨ input = "/q" then
    let r := save_session env.now s
    ({ r.1 with should_quit := true }, r.2)
  else if input = "/clear" then
    let r := save_session env.now s
    ({ r.1 with
        messages := []
        api_messages := r.1.api_messages.take 1
        input := "", input_cursor := 0
        token_usage := none
        session := Session.new env.now }, r.2)
  else if input = "/sessions" then
    ({ s with
        messages := s.messages ++ [⟨MessageRole.Assistant, sessionListMessage env⟩],
        input := "", input_cursor := 0 }, none)
  else if input = "/help" then
    ({ s with
        messages := s.messages ++ [⟨MessageRole.Assistant, HELP_TEXT⟩]
        input := "", input_cursor := 0 }, none)
  else if input = "/provider" then
    ({ s with
        messages := s.messages ++ [⟨MessageRole.Assistant, providerListMessage s.config⟩]
        input := "", input_cursor := 0 }, none)
  else if strStartsWith input "/provider " then
    let name := trimChars (strDrop input 10)
    match lookupProvider s.config.providers name with
    | some newProvider =>
      match (match newProvider.api_key with
             | some k => some k
             | none => env.envKey newProvider.api_key_env) with
      | some key =>
        ({ s with
            config := { s.config with default_provider := name }
            provider := newProvider
            api_key := key
            messages := s.messages
              ++ [⟨MessageRole.Assistant, "Switched to **" ++ name ++ "** (" ++ newProvider.model ++ ")"⟩]
            input := "", input_cursor := 0 }, none)
      | none =>
        ({ s with
            messages := s.messages
              ++ [⟨MessageRole.Assistant,
                "No API key for **" ++ name ++ "**. Set it with `/key <key>` after switching, or set $"
                  ++ newProvider.api_key_env⟩]
            input := "", input_cursor := 0 }, none)
    | none =>
      ({ s with
          messages := s.messages ++ [⟨MessageRole.Assistant, "Unknown provider: " ++ name⟩]
          input := "", input_cursor := 0 }, none)
  else if strStartsWith input "/key " then
    let key := trimChars (strDrop input 5)
    if key = "" then
      ({ s with error := some "API key cannot be empty", input := "", input_cursor := 0 }, none)
    else
      match lookupProvider s.config.providers s.config.default_provider with
      | some p =>
        let p2 := { p with api_key := some key }
        ({ s with
            api_key := key
            config := { s.config with
              providers := updateProvider s.config.providers s.config.default_provider p2 }
            provider := p2
            messages := s.messages
              ++ [⟨MessageRole.Assistant, "API key updated for **" ++ s.config.default_provider ++ "**"⟩]
            input := "", input_cursor := 0 }, none)
      | none =>
        ({ s with
            api_key := key
            messages := s.messages
              ++ [⟨MessageRole.Assistant, "API key updated for **" ++ s.config.default_provider ++ "**"⟩]
            input := "", input_cursor := 0 }, none)
  else if strStartsWith input "/load " then
    let id := trimChars (strDrop input 6)
    match env.loadSession id with
    | Except.ok sess =>
      let r := save_session env.now s
      ({ r.1 with
          messages := sess.messages
          api_messages := r.1.api_messages.take 1 ++ sess.api_messages.drop 1
          session := sess
          token_usage := none
          input := "", input_cursor := 0 }, r.2)
    | Except.error e =>
      ({ s with error := some ("Failed to load session: " ++ e), input := "", input_cursor := 0 },
       none)
  else
    let history2 := if s.history.getLast? = some input then s.history else s.history ++ [input]
    let expanded := expand_file_refs env.fs input
    let stubs : List ChatMessage := expanded.files_read.map fun pr =>
      ⟨MessageRole.Tool "read_file" (some pr.1), String.mk (List.replicate pr.2 '\n')⟩
    (start_api_call
      { s with
          history := history2
          history_pos := history2.length
          messages := (s.messages ++ [⟨MessageRole.User, input⟩]) ++ stubs
          api_messages := s.api_messages ++ [Wire.user expanded.text]
          input := "", input_cursor := 0
          state := AppState.Thinking }, none)

/-- Environment data observed on a controller tick that may start a tool or
raise a modal: the clock and the sandbox allow-list read from disk
(`SandboxConfig::load_merged`) together with the process environment for
path detection. -/
structure TickEnv where
  now : Int
  mergedSandboxPaths : List String
  senv : SandboxEnv

/-- Model of src/app.rs `App::check_bash_permission`. -/
def check_bash_permission (env : TickEnv) (temp : List String) (tc : ToolCall) :
    Option PermissionModal :=
  let command := (argsGetStr tc.args "command").getD ""
  if command = "" then none
  else
    match (get_missing_paths_for_command env.mergedSandboxPaths temp env.senv command).head? with
    | some firstMissing =>
      some (PermissionModal.new firstMissing.path firstMissing.reason tc.id)
    | none => none

/-- Model of src/app.rs `App::process_pending_tools`. -/
def process_pending_tools (env : TickEnv) (s : App) : App :=
  if s.pending_tool_execution.isSome then s
  else
    match s.pending_tool_calls with
    | [] => start_api_call { s with state := AppState.Thinking }
    | tc :: rest =>
      match (if tc.name = "bash" then check_bash_permission env s.temp_allowed_paths tc
             else none) with
      | some modal => { s with permission_modal := some modal }
      | none =>
        { s with
            pending_tool_calls := rest
            state := AppState.ToolCall (format_tool_call tc.name tc.args)
            pending_tool_execution := some ⟨tc.id, tc.name, argsGetStr tc.args "path"⟩ }

/-- Model of src/app.rs `App::handle_tool_calls`. -/
def handle_tool_calls (env : TickEnv) (toolCalls : List ToolCall) (s : App) : App :=
  process_pending_tools env
    { s with
        api_messages := s.api_messages ++ [Wire.assistantToolCalls toolCalls]
        pending_tool_calls := toolCalls }

/-- A successful chat-API response (src/api.rs `ApiResponse`). -/
structure ApiOk where
  content : Option String
  tool_calls : Option (List ToolCall)
  usage : Option (Nat × Nat)
deriving DecidableEq, Repr

/-- What a non-blocking `try_recv` on a channel can observe. -/
inductive Recv (α : Type)
  | empty
  | got (a : α)
  | disconnected
deriving DecidableEq, Repr

/-- Model of src/app.rs `App::poll_api_response`; `r` is what `try_recv`
observes on the response channel. -/
def poll_api_response (env : TickEnv) (r : Recv (Except String ApiOk)) (s : App) :
    App × Option Session :=
  if s.state = AppState.Idle then (s, none)
  else if s.cancel_flag then (s, none)
  else if s.pending_response = false then (s, none)
  else
    match r with
    | Recv.empty => (s, none)
    | Recv.disconnected =>
      if s.cancel_flag then (s, none)
      else
        ({ s with
            error := some "API thread crashed", state := AppState.Idle,
            pending_response := false }, none)
    | Recv.got result =>
      let s1 := { s with pending_response := false }
      match result with
      | Except.error e =>
        ({ s1 with
            error := some ("API error: " ++ e)
            api_messages := s1.api_messages.dropLast
            state := AppState.Idle }, none)
      | Except.ok resp =>
        let s2 := match resp.usage with
          | some u => { s1 with token_usage := some u }
          | none => s1
        match resp.tool_calls with
        | some tcs => (handle_tool_calls env tcs s2, none)
        | none =>
          let content := resp.content.getD ""
          save_session env.now
            { s2 with
                messages := s2.messages ++ [⟨MessageRole.Assistant, content⟩]
                api_messages := s2.api_messages ++ [Wire.assistant content]
                state := AppState.Idle }

/-- Model of src/app.rs `App::poll_tool_result`; `r` is what `try_recv`
observes on the tool channel (on `got`, the worker sent its captured
id/name/path plus the result string). -/
def poll_tool_result (env : TickEnv) (r : Recv String) (s : App) : App :=
  match s.pending_tool_execution with
  | none => s
  | some inflight =>
    match r with
    | Recv.empty => s
    | Recv.got result =>
      process_pending_tools env
        { s with
            pending_tool_execution := none
            messages := s.messages ++ [⟨MessageRole.Tool inflight.name inflight.path, result⟩]
            api_messages := s.api_messages ++ [Wire.toolResult inflight.id result] }
    | Recv.disconnected =>
      { s with
          pending_tool_execution := none,
          error := some "Tool execution thread crashed",
          state := AppState.Idle }

/-- Model of src/app.rs `App::modal_up`. -/
def modal_up (s : App) : App :=
  match s.permission_modal with
  | some m =>
    if m.selected > 0 then { s with permission_modal := some { m with selected := m.selected - 1 } }
    else s
  | none => s

/-- Model of src/app.rs `App::modal_down`. -/
def modal_down (s : App) : App :=
  match s.permission_modal with
  | some m =>
    if m.selected + 1 < m.options.length then
      { s with permission_modal := some { m with selected := m.selected + 1 } }
    else s
  | none => s

/-- Model of src/app.rs `App::modal_select`.  `sandboxSaveErr` is the outcome
of writing the grant into the project/global sandbox file (arms 0 and 1,
which differ only in which file on disk is written). -/
def modal_select (env : TickEnv) (sandboxSaveErr : Option String) (s : App) : App :=
  match s.permission_modal with
  | none => s
  | some modal =>
    let s0 := { s with permission_modal := none }
    if modal.selected = 0 ∨ modal.selected = 1 then
      let s1 := match sandboxSaveErr with
        | some e => { s0 with error := some ("Failed to save: " ++ e) }
        | none => s0
      process_pending_tools env s1
    else if modal.selected = 2 then
      process_pending_tools env
        { s0 with temp_allowed_paths := s0.temp_allowed_paths ++ [modal.path] }
    else if modal.selected = 3 then
      let result := "Permission denied: access to " ++ modal.path ++ " was not granted"
      let s1 := { s0 with
          messages := s0.messages ++ [⟨MessageRole.Tool "bash" none, result⟩]
          api_messages := s0.api_messages ++ [Wire.toolResult modal.pending_tool_id result]
          pending_tool_calls := s0.pending_tool_calls.drop 1 }
      if s1.pending_tool_calls = [] then start_api_call { s1 with state := AppState.Thinking }
      else process_pending_tools env s1
    else s0

/-- Model of src/app.rs `App::modal_cancel`: force the selection to Deny and
resolve. -/
def modal_cancel (env : TickEnv) (s : App) : App :=
  match s.permission_modal with
  | none => s
  | some m => modal_select env none { s with permission_modal := some { m with selected := 3 } }

/-- Model of src/app.rs `App::abort_request`. -/
def abort_request (s : App) : App :=
  if s.state = AppState.Idle then s
  else
    { s with
        cancel_flag := true
        pending_response := false
        pending_tool_calls := []
        pending_tool_execution := none
        state := AppState.Idle
        messages := s.messages ++ [⟨MessageRole.Assistant, "*Request aborted*"⟩] }

/-- The events of src/main.rs dispatched to the controller, with their
environment data.  `keyEnter`/`keyEsc`/`keyUp`/`keyDown` are the keys routed
by `handle_key`; `pollApi`/`pollTool` are the per-tick channel polls of
`run_app`.  Input editing and picker interaction (which only touch the input
editor) are outside the modelled event set, and `keyEnter` at Idle assumes no
picker is active. -/
inductive Event
  | keyEnter (tenv : TickEnv) (sandboxSaveErr : Option String) (senv : SubmitEnv)
  | keyEsc (tenv : TickEnv)
  | keyUp
  | keyDown
  | pollApi (tenv : TickEnv) (r : Recv (Except String ApiOk))
  | pollTool (tenv : TickEnv) (r : Recv String)

/-- src/main.rs `handle_event` clears the error banner on any key event. -/
def clearError (s : App) : App := { s with error := none }

/-- One dispatcher step (src/main.rs `handle_key` / the poll block of
`run_app`).  Returns the new app state and any session file written. -/
def step (s : App) (e : Event) : App × Option Session :=
  match e with
  | Event.keyEnter tenv saveErr senv =>
    let s1 := clearError s
    if s1.permission_modal.isSome then (modal_select tenv saveErr s1, none)
    else if s1.state ≠ AppState.Idle then (s1, none)
    else submit_input senv s1
  | Event.keyEsc tenv =>
    let s1 := clearError s
    if s1.permission_modal.isSome then (modal_cancel tenv s1, none)
    else if s1.state ≠ AppState.Idle then (abort_request s1, none)
    else ({ s1 with input := "", input_cursor := 0 }, none)
  | Event.keyUp => (modal_up (clearError s), none)
  | Event.keyDown => (modal_down (clearError s), none)
  | Event.pollApi tenv r =>
    if s.state = AppState.Idle then (s, none) else poll_api_response tenv r s
  | Event.pollTool tenv r =>
    if s.state = AppState.Idle then (s, none) else (poll_tool_result tenv r s, none)

/-- Run a sequence of events. -/
def runEvents (s : App) : List Event → App
  | [] => s
  | e :: es => runEvents (step s e).1 es

/-- The system prompt of `App::new`: mode prompt plus the optional `HAL.md`
project context in coding mode. -/
def buildSystemPrompt (m : Mode) (ctx : Option String) : String :=
  match m, ctx with
  | Mode.Coding, some c => get_system_prompt Mode.Coding ++ "\n\n## Project Context\n\n" ++ c
  | _, _ => get_system_prompt m

/-- Model of src/app.rs `App::new`: `ctx` is the content of `HAL.md` when
present, `restore` an optional saved session to resume. -/
def App.new (config : Config) (envKey : String → Option String) (ctx : Option String)
    (restore : Option Session) (now : Int) : Except String App :=
  match lookupProvider config.providers config.default_provider with
  | none => Except.error ("Provider '" ++ config.default_provider ++ "' not found")
  | some provider =>
    match (match provider.api_key with
           | some k => some k
           | none => envKey provider.api_key_env) with
    | none => Except.error ("Set $" ++ provider.api_key_env ++ " with your API key")
    | some key =>
      let systemPrompt := buildSystemPrompt config.mode ctx
      let baseApi : List Wire := [Wire.system systemPrompt]
      let r :=
        match restore with
        | some sess =>
          (sess.messages, baseApi ++ sess.api_messages.drop 1, { sess with updated_at := now })
        | none => ([], baseApi, Session.new now)
      Except.ok
        { config := config, input := "", input_cursor := 0
          messages := r.1, api_messages := r.2.1, state := AppState.Idle
          history := [], history_pos := 0, should_quit := false, error := none
          token_usage := none, permission_modal := none, temp_allowed_paths := []
          api_key := key, provider := provider
          pending_response := false, pending_tool_calls := []
          pending_tool_execution := none, session := r.2.2, cancel_flag := false }

/-- The fall-through condition of `submit_input`: the trimmed input is none
of the built-in slash commands, so a model turn is started. -/
def isPlainMessage (i : String) : Prop :=
  i ≠ "" ∧ i ≠ "/quit" ∧ i ≠ "/exit" ∧ i ≠ "/q" ∧ i ≠ "/clear" ∧ i ≠ "/sessions"
    ∧ i ≠ "/help" ∧ i ≠ "/provider"
    ∧ strStartsWith i "/provider " = false
    ∧ strStartsWith i "/key " = false
    ∧ strStartsWith i "/load " = false

/-- Is the event a tool-worker crash (a disconnected tool channel)? -/
def Event.isToolCrash : Event → Bool
  | Event.pollTool _ Recv.disconnected => true
  | _ => false

/-- The controller invariant: the Idle/pending-work iff of the specification
strengthened by the mutual-exclusion facts needed for induction. -/
def ControllerInv (s : App) : Prop :=
  (s.state = AppState.Idle ↔
    (s.pending_response = false ∧ s.pending_tool_execution = none
      ∧ s.pending_tool_calls = [] ∧ s.permission_modal = none))
  ∧ (s.pending_response = true →
      s.pending_tool_calls = [] ∧ s.pending_tool_execution = none ∧ s.permission_modal = none)
  ∧ (s.pending_tool_execution ≠ none → s.permission_modal = none ∧ s.pending_response = false)
  ∧ (s.permission_modal ≠ none →
      s.pending_response = false ∧ s.pending_tool_execution = none ∧ s.pending_tool_calls ≠ [])

/-! ### Concrete fixtures used by the witnesses and counterexamples -/

/-- A concrete provider for witness states. -/
def witnessProvider : Provider :=
  { base_url := "u", model := "m", api_key_env := "K", api_key := some "sk" }

/-- A concrete configuration for witness states (coach mode keeps the system
prompt short). -/
def witnessConfig : Config :=
  { default_provider := "gemini", mode := Mode.Coach, providers := [("gemini", witnessProvider)] }

/-- A concrete submit environment: empty file system, no saved sessions. -/
def witnessSubmitEnv : SubmitEnv :=
  { now := 100
    fs := fun _ => none
    sessions := []
    loadSession := fun _ => Except.error "nope"
    envKey := fun _ => none
    fmtDate := fun _ => "" }

/-- A concrete sandbox environment. -/
def witnessSandboxEnv : SandboxEnv :=
  { home := "/home/u", cargoHome := none, rustupHome := none, gopath := none, nvmDir := none }

/-- A concrete tick environment with an empty allow-list on disk. -/
def witnessTickEnv : TickEnv :=
  { now := 100, mergedSandboxPaths := [], senv := witnessSandboxEnv }

/-- The app state `App::new` produces from `witnessConfig` (fresh session at
time 100). -/
def witnessApp : App :=
  { config := witnessConfig, input := "", input_cursor := 0, messages := []
    api_messages := [Wire.system (get_system_prompt Mode.Coach)], state := AppState.Idle
    history := [], history_pos := 0, should_quit := false, error := none, token_usage := none
    permission_modal := none, temp_allowed_paths := [], api_key := "sk"
    provider := witnessProvider, pending_response := false, pending_tool_calls := []
    pending_tool_execution := none, session := Session.new 100, cancel_flag := false }

/-! ## Theorems -/

theorem consumeQuery_nil (cs : List Char) : consumeQuery [] cs = [] := by
  induction cs with
  | nil => rfl
  | cons c cs ih => simpa [consumeQuery] using ih

theorem consumeQuery_eq_nil_iff (cs qs : List Char) :
    consumeQuery qs cs = [] ↔ qs.Sublist cs := by
  induction cs generalizing qs with
  | nil =>
    cases qs with
    | nil => simp [consumeQuery]
    | cons q qs' => simp [consumeQuery]
  | cons c cs ih =>
    cases qs with
    | nil => simp [consumeQuery_nil]
    | cons q qs' =>
      by_cases h : q = c
      · subst h
        have hstep : consumeQuery (q :: qs') (q :: cs) = consumeQuery qs' cs := by
          simp [consumeQuery]
        rw [hstep, ih]
        constructor
        · exact fun hs => List.Sublist.cons₂ _ hs
        · intro hs
          cases hs with
          | cons _ hs' => exact (List.sublist_cons_self _ _).trans hs'
          | cons₂ _ hs' => exact hs'
      · have hstep : consumeQuery (q :: qs') (c :: cs) = consumeQuery (q :: qs') cs := by
          simp [consumeQuery, h]
        rw [hstep, ih]
        constructor
        · exact fun hs => List.Sublist.cons _ hs
        · intro hs
          cases hs with
          | cons _ hs' => exact hs'
          | cons₂ _ hs' => exact absurd rfl h

/-! ### Claim C9: the picker subsequence filter -/

/-- C9.  `filter_items(items, q)` returns exactly the items whose lower-cased
form contains the lower-cased query as a subsequence (characters in order),
in input order, capped at the first `MAX_PICKER_ITEMS = 10` matches; an empty
query matches every item. -/
theorem claim_C9_filter_items (items : List String) (q : String) :
    (∀ i : String,
      ((if strToLower q = "" then true else subseqMatch (strToLower q) (strToLower i)) = true
        ↔ ((strToLower q).data).Sublist ((strToLower i).data)))
    ∧ filter_items items q MAX_PICKER_ITEMS
        = (items.filter fun i =>
            decide (((strToLower q).data).Sublist ((strToLower i).data))).take MAX_PICKER_ITEMS
    ∧ (q = "" → filter_items items q MAX_PICKER_ITEMS = items.take MAX_PICKER_ITEMS) := by
  have hiff : ∀ i : String,
      ((if strToLower q = "" then true else subseqMatch (strToLower q) (strToLower i)) = true
        ↔ ((strToLower q).data).Sublist ((strToLower i).data)) := by
    intro i
    by_cases hq : strToLower q = ""
    · rw [if_pos hq, hq]
      simpa using List.nil_sublist _
    · rw [if_neg hq]
      unfold subseqMatch
      rw [List.isEmpty_iff]
      exact consumeQuery_eq_nil_iff _ _
  refine ⟨hiff, ?_, ?_⟩
  · simp only [filter_items]
    congr 1
    apply List.filter_congr
    intro i _
    by_cases hs : ((strToLower q).data).Sublist ((strToLower i).data)
    · rw [(hiff i).mpr hs, decide_eq_true hs]
    · have h1 : (if strToLower q = "" then true else subseqMatch (strToLower q) (strToLower i))
          = false := by
        cases hb : (if strToLower q = "" then true else subseqMatch (strToLower q) (strToLower i)) with
        | true => exact absurd ((hiff i).mp hb) hs
        | false => rfl
      rw [h1, decide_eq_false hs]
  · intro hq
    subst hq
    unfold filter_items
    have : strToLower "" = "" := rfl
    simp [this]

/-- Witness for C9 at a concrete picker list: the query "ba" keeps exactly the
items containing "b" then "a" in order, and the empty query keeps everything. -/
theorem claim_C9_filter_items_witness :
    filter_items ["foo", "bar", "baz", "abc"] "ba" MAX_PICKER_ITEMS = ["bar", "baz"]
    ∧ filter_items ["foo", "bar"] "" MAX_PICKER_ITEMS = ["foo", "bar"] := by
  constructor
  · rw [(claim_C9_filter_items ["foo", "bar", "baz", "abc"] "ba").2.1]
    decide
  · exact (claim_C9_filter_items ["foo", "bar"] "").2.2 rfl

/-! ### Claim C4: edit_file replaces exactly one occurrence -/

theorem countOccsFuel_congr [DecidableEq α] (pat : List α) :
    ∀ f₁ f₂ : Nat, ∀ l : List α, l.length ≤ f₁ → l.length ≤ f₂ →
      countOccsFuel pat f₁ l = countOccsFuel pat f₂ l := by
  intro f₁
  induction f₁ with
  | zero =>
    intro f₂ l h1 _
    have : l = [] := List.eq_nil_of_length_eq_zero (Nat.le_zero.mp h1)
    subst this
    cases f₂ <;> rfl
  | succ f₁ ih =>
    intro f₂ l h1 h2
    cases l with
    | nil => cases f₂ <;> rfl
    | cons a t =>
      cases f₂ with
      | zero => simp at h2
      | succ f₂ =>
        show countOccsFuel pat (f₁ + 1) (a :: t) = countOccsFuel pat (f₂ + 1) (a :: t)
        rw [countOccsFuel, countOccsFuel]
        simp only [List.length_cons] at h1 h2
        by_cases hc : pat ≠ [] ∧ pat.isPrefixOf (a :: t)
        · rw [if_pos hc, if_pos hc]
          congr 1
          have hlp : 1 ≤ pat.length := List.length_pos.mpr hc.1
          apply ih
          · simp only [List.length_drop, List.length_cons]; omega
          · simp only [List.length_drop, List.length_cons]; omega
        · rw [if_neg hc, if_neg hc]
          exact ih f₂ t (by omega) (by omega)

theorem countOccs_cons [DecidableEq α] (pat : List α) (a : α) (l : List α) :
    countOccs pat (a :: l)
      = if pat ≠ [] ∧ pat.isPrefixOf (a :: l) then
          1 + countOccs pat ((a :: l).drop pat.length)
        else countOccs pat l := by
  show countOccsFuel pat (a :: l).length (a :: l) = _
  rw [show (a :: l).length = l.length + 1 from rfl, countOccsFuel]
  by_cases hc : pat ≠ [] ∧ pat.isPrefixOf (a :: l)
  · rw [if_pos hc, if_pos hc]
    congr 1
    have hlp : 1 ≤ pat.length := List.length_pos.mpr hc.1
    apply countOccsFuel_congr
    · simp only [List.length_drop, List.length_cons]; omega
    · exact Nat.le_refl _
  · rw [if_neg hc, if_neg hc]
    rfl

theorem countOccs_nil [DecidableEq α] (pat : List α) : countOccs pat ([] : List α) = 0 := rfl

theorem replaceFirst_spec [DecidableEq α] (pat rep : List α) :
    ∀ l : List α, pat ≠ [] → 1 ≤ countOccs pat l →
      ∃ pre suf, l = pre ++ (pat ++ suf) ∧ replaceFirst pat rep l = pre ++ (rep ++ suf) := by
  intro l
  induction l with
  | nil =>
    intro _ h1
    rw [countOccs_nil] at h1
    omega
  | cons a t ih =>
    intro hp h1
    by_cases hpre : pat.isPrefixOf (a :: t)
    · obtain ⟨suf, hsuf⟩ := List.isPrefixOf_iff_prefix.mp hpre
      refine ⟨[], suf, by simpa using hsuf.symm, ?_⟩
      rw [replaceFirst, if_pos ⟨hp, hpre⟩]
      simp only [List.nil_append]
      congr 1
      rw [← hsuf, List.drop_left]
    · rw [countOccs_cons, if_neg (fun hc => hpre hc.2)] at h1
      obtain ⟨pre, suf, h3, h4⟩ := ih hp h1
      refine ⟨a :: pre, suf, by simp [h3], ?_⟩
      rw [replaceFirst, if_neg (fun hc => hpre hc.2), h4]
      simp

/-- C4.  `edit_file(path, old, new)` fails with the not-found error when `old`
occurs zero times, fails with
`"Error: text appears <n> times in <path> - be more specific"` (including the
count) when it occurs `n > 1` times — in both cases writing nothing, so the
file is unchanged — and when it occurs exactly once, writes the content with
precisely that one occurrence replaced. -/
theorem claim_C4_edit_file (path old new content : String) (writeErr : Option String)
    (hpath : path ≠ "") (hold : old ≠ "") :
    (countOccs old.data content.data = 0 →
      tool_edit_file path old new (Except.ok content) writeErr
        = ("Error: text not found in " ++ path, none))
    ∧ (1 < countOccs old.data content.data →
      tool_edit_file path old new (Except.ok content) writeErr
        = ("Error: text appears " ++ toString (countOccs old.data content.data)
            ++ " times in " ++ path ++ " - be more specific", none))
    ∧ (countOccs old.data content.data = 1 → writeErr = none →
      ∃ pre suf, content.data = pre ++ (old.data ++ suf)
        ∧ (tool_edit_file path old new (Except.ok content) writeErr).2
            = some (String.mk (pre ++ (new.data ++ suf)))) := by
  have holdData : old.data ≠ [] := by
    intro hd
    apply hold
    cases old
    simp only at hd
    rw [hd]
  refine ⟨?_, ?_, ?_⟩
  · intro h0
    rw [tool_edit_file, if_neg hpath, if_neg hold]
    simp [h0]
  · intro h2
    rw [tool_edit_file, if_neg hpath, if_neg hold]
    simp only
    rw [if_neg (by omega), if_pos h2]
  · intro h1 hw
    subst hw
    obtain ⟨pre, suf, hsplit, hrep⟩ :=
      replaceFirst_spec old.data new.data content.data holdData (by omega)
    refine ⟨pre, suf, hsplit, ?_⟩
    rw [tool_edit_file, if_neg hpath, if_neg hold]
    simp only
    rw [if_neg (by omega), if_neg (by omega)]
    simp [hrep]

/-- C4 witness: at `path = "p"`, `old = "x"`, `new = "y"` the theorem applies;
on content `"axbxc"` (two occurrences) the ambiguous error with count 2 is
returned and nothing is written. -/
theorem claim_C4_edit_file_witness :
    (1 < countOccs "x".data "axbxc".data)
    ∧ tool_edit_file "p" "x" "y" (Except.ok "axbxc") none
        = ("Error: text appears " ++ toString (countOccs "x".data "axbxc".data)
            ++ " times in " ++ "p" ++ " - be more specific", none) :=
  ⟨by decide,
   (claim_C4_edit_file "p" "x" "y" "axbxc" none (by decide) (by decide)).2.1 (by decide)⟩

/-! ### Claim C6: read_file line numbering and range errors -/

/-- C6 counterexample: with no range parameters, `read_file` returns the raw
file content with no `"<n>: "` prefixes, so the claim that the output always
consists of prefixed lines fails on the file `"a\nb"`. -/
theorem claim_C6_counterexample :
    tool_read_file "p" none none (Except.ok "a\nb") = some "a\nb"
      ∧ "a\nb" ≠ renderNumbered (rustLines "a\nb") 0 := by
  constructor
  · rfl
  · decide

/-- C6 (amended).  On an existing file: with no range parameters the raw
content is returned unprefixed; when `start_line ≥ 1` is given (and, if
`end_line` is also given, `end_line ≥ start_line - 1`, without which the Rust
slice panics), the call fails with the range error exactly when `start_line`
exceeds the file's line count, and otherwise returns the selected 1-indexed
inclusive range with each line prefixed `"<n>: "`. -/
theorem claim_C6_read_file (path content : String) (s e : Nat) (hpath : path ≠ "")
    (hs : 1 ≤ s) :
    (tool_read_file path none none (Except.ok content) = some content)
    ∧ (tool_read_file path (some s) none (Except.ok content)
        = if (rustLines content).length < s then
            some ("Error: start_line " ++ toString s ++ " exceeds file length ("
              ++ toString (rustLines content).length ++ ")")
          else some (renderNumbered ((rustLines content).drop (s - 1)) (s - 1)))
    ∧ (s - 1 ≤ e →
        tool_read_file path (some s) (some e) (Except.ok content)
          = if (rustLines content).length < s then
              some ("Error: start_line " ++ toString s ++ " exceeds file length ("
                ++ toString (rustLines content).length ++ ")")
            else
              some (renderNumbered
                (((rustLines content).drop (s - 1)).take (min e (rustLines content).length - (s - 1)))
                (s - 1)))
    ∧ (tool_read_file path none (some e) (Except.ok content)
        = some (renderNumbered ((rustLines content).take (min e (rustLines content).length)) 0)) := by
  refine ⟨?_, ?_, ?_, ?_⟩
  · rw [tool_read_file, if_neg hpath]
  · rw [tool_read_file, if_neg hpath]
    simp only
    by_cases hlen : (rustLines content).length < s
    · rw [if_pos (by omega), if_pos hlen]
    · rw [if_neg (by omega), if_neg hlen]
  · intro he
    rw [tool_read_file, if_neg hpath]
    simp only
    by_cases hlen : (rustLines content).length < s
    · rw [if_pos (by omega), if_pos hlen]
    · rw [if_neg (by omega)]
      rw [if_neg (by omega), if_neg hlen]
  · rw [tool_read_file, if_neg hpath]

/-- C6 witness: on the four-line file `"a\nb\nc\nd"` with range 2..3 the
amended theorem applies and yields the prefixed lines `"2: b\n3: c"`. -/
theorem claim_C6_read_file_witness :
    ("p" : String) ≠ "" ∧ (1 : Nat) ≤ 2
    ∧ tool_read_file "p" (some 2) (some 3) (Except.ok "a\nb\nc\nd")
        = if (rustLines "a\nb\nc\nd").length < 2 then
            some ("Error: start_line " ++ toString 2 ++ " exceeds file length ("
              ++ toString (rustLines "a\nb\nc\nd").length ++ ")")
          else
            some (renderNumbered
              (((rustLines "a\nb\nc\nd").drop (2 - 1)).take
                (min 3 (rustLines "a\nb\nc\nd").length - (2 - 1)))
              (2 - 1)) :=
  ⟨by decide, by decide,
   (claim_C6_read_file "p" "a\nb\nc\nd" 2 3 (by decide) (by decide)).2.2.1 (by decide)⟩

/-! ### Claim C5: write_file diff formatting -/

/-- C5 counterexample: for the same path and contents, the write-result path
(`tool_write_file`, which uses the plain `format_diff`) and the write-preview
path (`preview_write_file`, which uses `format_diff_with_context`) produce
different diff texts, so the diff formatting is not shared between them. -/
theorem claim_C5_counterexample :
    (tool_write_file "p" "b\n" true "a\n" none none).1 = "Wrote p\n-a\n+b\n"
    ∧ (preview_write_file "p" "b\n" true "a\n").toOption
        = some ("Wrote p\n-   1│a\n+   1│b\n", "b\n")
    ∧ ("Wrote p\n-a\n+b\n" : String) ≠ "Wrote p\n-   1│a\n+   1│b\n" := by
  refine ⟨by decide, by decide, by decide⟩

/-- C5 (amended).  The write result for an existing file is the plain
`format_diff` output (only changed lines, `-`/`+` markers, no context lines,
line numbers or `···` separators); for a new file it is a `"Created <path>"`
block of `+`-prefixed raw lines.  The 3-line-context/line-number/`···` format
belongs to the preview path (`preview_write_file`), which in general produces
a different text for the same path and contents. -/
theorem claim_C5_write_file (path content oldContent : String) (fileExists : Bool)
    (hpath : path ≠ "") :
    (¬(oldContent = "" ∧ fileExists = false) →
      tool_write_file path content fileExists oldContent none none
        = (format_diff path oldContent content, some content))
    ∧ (tool_write_file path content false "" none none
        = ("Created " ++ path ++ "\n"
            ++ String.join ((rustLines content).map fun l => "+" ++ l ++ "\n"), some content))
    ∧ (¬(oldContent = "" ∧ fileExists = false) →
      preview_write_file path content fileExists oldContent
        = Except.ok ((if oldContent = content then "No changes to " ++ path
            else format_diff_with_context path "Wrote" oldContent content), content)) := by
  refine ⟨?_, ?_, ?_⟩
  · intro hnotnew
    rw [tool_write_file, if_neg hpath]
    simp only [if_neg hnotnew]
  · rw [tool_write_file, if_neg hpath]
    simp
  · intro hnotnew
    rw [preview_write_file, if_neg hpath]
    simp only [if_neg hnotnew]

/-- C5 witness: at an existing one-line file the amended theorem applies and
the write result is the plain `format_diff` text. -/
theorem claim_C5_write_file_witness :
    ¬(("a\n" : String) = "" ∧ true = false)
    ∧ tool_write_file "p" "b\n" true "a\n" none none
        = (format_diff "p" "a\n" "b\n", some "b\n") :=
  ⟨by decide, (claim_C5_write_file "p" "b\n" "a\n" true (by decide)).1 (by decide)⟩

/-! ### Claim C3: sandbox path matching -/

/-- C3.  A detected `PathRequest` is satisfied — dropped from the missing
list, so it raises no permission modal — precisely when some entry of the
union of the global config, the project config and the ephemeral grants is a
path-component prefix of the request or vice versa; `check_bash_permission`
raises no modal exactly when no request is missing; and a granted path is
stored `~`-expanded. -/
theorem claim_C3_sandbox_match (globalPaths projectPaths temp : List String)
    (senv : SandboxEnv) (command : String) (req : PathRequest)
    (hreq : req ∈ detect_required_paths senv command) :
    ((req ∉ get_missing_paths_for_command (load_merged globalPaths projectPaths) temp senv command)
      ↔ ∃ a ∈ globalPaths ++ projectPaths ++ temp,
          rustPathStartsWith req.path a = true ∨ rustPathStartsWith a req.path = true)
    ∧ (∀ (tenv : TickEnv) (tc : ToolCall),
        tenv.mergedSandboxPaths = load_merged globalPaths projectPaths →
        tenv.senv = senv →
        argsGetStr tc.args "command" = some command → command ≠ "" →
        (check_bash_permission tenv temp tc = none
          ↔ get_missing_paths_for_command (load_merged globalPaths projectPaths) temp senv command
              = []))
    ∧ (∀ (home : Option String) (p : String) (cfg : List String),
        expand_path home p ∈ add_path home p cfg) := by
  refine ⟨?_, ?_, ?_⟩
  · rw [get_missing_paths_for_command]
    rw [List.mem_filter]
    constructor
    · intro hnot
      have hfail : ¬((!(load_merged globalPaths projectPaths).any fun allowed =>
            pathSatisfies req.path allowed)
          && !(temp.any fun allowed => pathSatisfies req.path allowed)) = true := by
        intro hc
        exact hnot ⟨hreq, hc⟩
      simp only [Bool.and_eq_true, Bool.not_eq_true', List.any_eq_false, not_and_or,
        not_forall] at hfail
      simp only [pathSatisfies, Bool.or_eq_true] at hfail
      rcases hfail with ⟨a, ha, hsat⟩ | ⟨a, ha, hsat⟩
      · rw [load_merged, List.mem_dedup, List.mem_append] at ha
        refine ⟨a, ?_, not_not.mp hsat⟩
        rw [List.mem_append, List.mem_append]
        rcases ha with h | h
        · exact Or.inl (Or.inl h)
        · exact Or.inl (Or.inr h)
      · refine ⟨a, ?_, not_not.mp hsat⟩
        rw [List.mem_append]
        exact Or.inr ha
    · rintro ⟨a, ha, hsat⟩ ⟨_, hfilter⟩
      simp only [Bool.and_eq_true, Bool.not_eq_true', List.any_eq_false] at hfilter
      rw [List.mem_append, List.mem_append] at ha
      have hsat' : pathSatisfies req.path a = true := by
        simp only [pathSatisfies, Bool.or_eq_true]
        exact hsat
      rcases ha with (h | h) | h
      · exact absurd hsat' (by simpa using hfilter.1 a (by
          rw [load_merged, List.mem_dedup, List.mem_append]; exact Or.inl h))
      · exact absurd hsat' (by simpa using hfilter.1 a (by
          rw [load_merged, List.mem_dedup, List.mem_append]; exact Or.inr h))
      · exact absurd hsat' (by simpa using hfilter.2 a h)
  · intro tenv tc hmerged hsenv hcmd hne
    rw [check_bash_permission, hcmd]
    simp only [Option.getD_some]
    rw [if_neg hne, hmerged, hsenv]
    cases hmiss : get_missing_paths_for_command (load_merged globalPaths projectPaths) temp senv
        command with
    | nil => simp
    | cons x xs => simp
  · intro home p cfg
    rw [add_path]
    split_ifs with hmem
    · exact hmem
    · simp

/-- C3 witness: with empty configs and grants, the `~/.cargo` request of
`"cargo build"` is unsatisfied (no allow entry exists). -/
theorem claim_C3_sandbox_match_witness :
    (⟨"/home/u/.cargo", "Cargo needs access to ~/.cargo for toolchain and crates"⟩ : PathRequest)
        ∈ detect_required_paths ⟨"/home/u", none, none, none, none⟩ "cargo build"
    ∧ (((⟨"/home/u/.cargo", "Cargo needs access to ~/.cargo for toolchain and crates"⟩ : PathRequest)
          ∉ get_missing_paths_for_command (load_merged [] []) []
              ⟨"/home/u", none, none, none, none⟩ "cargo build")
        ↔ ∃ a ∈ ([] : List String) ++ [] ++ [],
            rustPathStartsWith "/home/u/.cargo" a = true
              ∨ rustPathStartsWith a "/home/u/.cargo" = true) :=
  ⟨by decide,
   (claim_C3_sandbox_match [] [] [] ⟨"/home/u", none, none, none, none⟩ "cargo build"
      ⟨"/home/u/.cargo", "Cargo needs access to ~/.cargo for toolchain and crates"⟩
      (by decide)).1⟩

/-! ### Claim C7: reference expansion blocks -/

theorem str_data_append (s t : String) : (s ++ t).data = s.data ++ t.data := by
  cases s; cases t; rfl

theorem str_append_empty (s : String) : s ++ "" = s := by
  apply String.ext
  rw [str_data_append]
  simp

theorem str_mk_ne_empty (d : List Char) (h : d ≠ []) : (⟨d⟩ : String) ≠ "" := by
  intro hc
  apply h
  have : (⟨d⟩ : String).data = ("" : String).data := by rw [hc]
  simpa using this

theorem tokenPath_eq_some (w p : String) :
    tokenPath w = some p ↔ w = "@" ++ p ∧ p ≠ "" := by
  constructor
  · intro h
    rcases w with ⟨d⟩
    cases d with
    | nil => simp [tokenPath] at h
    | cons c rest =>
      rw [tokenPath] at h
      simp only at h
      split_ifs at h with hc
      obtain ⟨rfl⟩ := Option.some.inj h
      refine ⟨?_, str_mk_ne_empty rest hc.2⟩
      apply String.ext
      rw [str_data_append, hc.1]
      rfl
  · rintro ⟨rfl, hne⟩
    have hd : ("@" ++ p).data = '@' :: p.data := by
      rw [str_data_append]
      rfl
    have hrest : p.data ≠ [] := by
      intro hc
      apply hne
      apply String.ext
      simpa using hc
    rw [tokenPath, hd]
    simp only [hrest, ne_eq, not_false_eq_true, and_true, true_and, if_pos rfl, if_true]

theorem tokenPath_at (p : String) (hne : p ≠ "") : tokenPath ("@" ++ p) = some p :=
  (tokenPath_eq_some ("@" ++ p) p).mpr ⟨rfl, hne⟩

theorem at_append_inj (p q : String) (h : "@" ++ p = "@" ++ q) : p = q := by
  apply String.ext
  have := congrArg String.data h
  rw [str_data_append, str_data_append] at this
  simpa using this

theorem expandAcc_components (fs : String → Option String) :
    ∀ (tokens : List String) (r : String) (bs : List String) (fr : List (String × Nat)),
      (tokens.foldl (expandStep fs) (r, bs, fr)).2.1 = bs ++ tokens.filterMap (blockOf fs)
      ∧ (tokens.foldl (expandStep fs) (r, bs, fr)).2.2 = fr ++ tokens.filterMap (readOf fs) := by
  intro tokens
  induction tokens with
  | nil => intro r bs fr; simp
  | cons w ts ih =>
    intro r bs fr
    rw [List.foldl_cons, List.filterMap_cons, List.filterMap_cons]
    cases h : tokenPath w with
    | none =>
      have hstep : expandStep fs (r, bs, fr) w = (r, bs, fr) := by
        simp only [expandStep, h]
      rw [hstep]
      simp only [blockOf, readOf, h]
      exact ih r bs fr
    | some p =>
      cases hf : fs p with
      | none =>
        have hstep : expandStep fs (r, bs, fr) w = (r, bs, fr) := by
          simp only [expandStep, h, hf]
        rw [hstep]
        simp only [blockOf, readOf, h, hf, Option.map_none']
        exact ih r bs fr
      | some c =>
        have hstep : expandStep fs (r, bs, fr) w
            = (strReplace r w ("`" ++ p ++ "`"), bs ++ [fileBlock p c],
               fr ++ [(p, (rustLines c).length)]) := by
          simp only [expandStep, h, hf]
        rw [hstep]
        simp only [blockOf, readOf, h, hf, Option.map_some']
        obtain ⟨h1, h2⟩ := ih (strReplace r w ("`" ++ p ++ "`")) (bs ++ [fileBlock p c])
          (fr ++ [(p, (rustLines c).length)])
        rw [h1, h2]
        simp

theorem count_files_read (fs : String → Option String) (p c : String)
    (hp : fs p = some c) (hne : p ≠ "") :
    ∀ tokens : List String,
      ((tokens.filterMap (readOf fs)).map Prod.fst).count p = tokens.count ("@" ++ p) := by
  intro tokens
  induction tokens with
  | nil => simp
  | cons w ts ih =>
    rw [List.filterMap_cons]
    cases h : tokenPath w with
    | none =>
      have hwne : w ≠ "@" ++ p := by
        intro hc
        rw [hc, tokenPath_at p hne] at h
        exact Option.noConfusion h
      simp only [readOf, h]
      rw [List.count_cons_of_ne (by simpa using hwne.symm)]
      exact ih
    | some q =>
      have hw : w = "@" ++ q := ((tokenPath_eq_some w q).mp h).1
      cases hf : fs q with
      | none =>
        have hqp : q ≠ p := by
          intro hc
          rw [hc, hp] at hf
          exact Option.noConfusion hf
        have hwne : w ≠ "@" ++ p := by
          intro hc
          exact hqp (at_append_inj q p (hw ▸ hc))
        simp only [readOf, h, hf, Option.map_none']
        rw [List.count_cons_of_ne (by simpa using hwne.symm)]
        exact ih
      | some cq =>
        simp only [readOf, h, hf, Option.map_some']
        by_cases hqp : q = p
        · subst hqp
          rw [hw]
          rw [List.map_cons, List.count_cons_self, List.count_cons_self, ih]
        · have hwne : w ≠ "@" ++ p := by
            intro hc
            exact hqp (at_append_inj q p (hw ▸ hc))
          rw [List.map_cons, List.count_cons_of_ne (by simpa using Ne.symm hqp),
            List.count_cons_of_ne (by simpa using hwne.symm)]
          exact ih

/-- C7 counterexample: the input `"@a @a"` (the same existing-file token
twice) produces two `files_read` stubs and two identical
`<file path="a">…</file>` blocks in the outgoing wire content — not exactly
one block for that path. -/
theorem claim_C7_counterexample :
    (expand_file_refs (fun q => if q = "a" then some "x" else none) "@a @a").files_read
        = [("a", 1), ("a", 1)]
    ∧ countOccs ("<file path=\"a\">").data
        (expand_file_refs (fun q => if q = "a" then some "x" else none) "@a @a").text.data
        = 2 := by
  refine ⟨by decide, by decide⟩

/-- C7 (amended).  For an `@<path>` token whose path resolves to a readable
file, the outgoing wire content carries one `<file path="…">…</file>` block
per *occurrence* of the token (so a token repeated k times contributes its
block k times, and a token occurring exactly once contributes exactly one
block): the `files_read` entries for the path are in bijection with the
occurrences of the token, the accumulated blocks are exactly the per-token
blocks in order, and the wire text is the rewritten input followed by the
concatenation of those blocks. -/
theorem claim_C7_expand_file_refs (fs : String → Option String) (input p c : String)
    (hp : fs p = some c) (hne : p ≠ "") :
    ((expand_file_refs fs input).files_read.map Prod.fst).count p
        = (splitWhitespace input).count ("@" ++ p)
    ∧ (expandAcc fs input).2.1 = (splitWhitespace input).filterMap (blockOf fs)
    ∧ (expand_file_refs fs input).text
        = (expandAcc fs input).1
            ++ String.join ((splitWhitespace input).filterMap (blockOf fs)) := by
  obtain ⟨hblocks, hreads⟩ := expandAcc_components fs (splitWhitespace input) input [] []
  have hfr : (expand_file_refs fs input).files_read
      = (splitWhitespace input).filterMap (readOf fs) := by
    rw [expand_file_refs]
    simpa [expandAcc] using hreads
  have hb : (expandAcc fs input).2.1 = (splitWhitespace input).filterMap (blockOf fs) := by
    simpa [expandAcc] using hblocks
  refine ⟨?_, hb, ?_⟩
  · rw [hfr]
    exact count_files_read fs p c hp hne (splitWhitespace input)
  · rw [expand_file_refs]
    simp only
    rw [hb]
    split_ifs with hempty
    · rw [hempty, show String.join [] = "" from rfl, str_append_empty]
    · rfl

/-- C7 witness: on the input `"@a hello"` with file `a` readable, the block
count for path `a` equals the single occurrence of the token `@a`. -/
theorem claim_C7_expand_file_refs_witness :
    (fun q => if q = "a" then some "x" else none) "a" = some "x"
    ∧ ("a" : String) ≠ ""
    ∧ ((expand_file_refs (fun q => if q = "a" then some "x" else none) "@a hello").files_read.map
          Prod.fst).count "a"
        = (splitWhitespace "@a hello").count ("@" ++ "a") :=
  ⟨rfl, by decide,
   (claim_C7_expand_file_refs (fun q => if q = "a" then some "x" else none) "@a hello" "a" "x"
      rfl (by decide)).1⟩

/-! ### Claim C10: save_session on an empty transcript -/

/-- C10.  With an empty UI message list, `save_session` is a complete no-op:
the app (including the session's title, `updated_at` and snapshots) is
unchanged and no session file is written; consequently `/quit` and `/clear`
issued before any message exchange never persist a session. -/
theorem claim_C10_save_session (s : App) (now : Int) (env : SubmitEnv)
    (hempty : s.messages = []) :
    save_session now s = (s, none)
    ∧ (trimChars s.input = "/quit" →
        submit_input env s = ({ s with should_quit := true }, none))
    ∧ (trimChars s.input = "/clear" → (submit_input env s).2 = none) := by
  have h1 : ∀ t : Int, save_session t s = (s, none) := by
    intro t
    rw [save_session, if_pos hempty]
  refine ⟨h1 now, ?_, ?_⟩
  · intro hq
    simp only [submit_input, hq]
    rw [if_neg (by decide), if_pos (Or.inl trivial), h1 env.now]
  · intro hc
    simp only [submit_input, hc]
    rw [if_neg (by decide), if_neg (by decide), if_pos trivial, h1 env.now]

/-- C10 witness: the fresh witness app has no messages; `/quit` quits without
writing a session file. -/
theorem claim_C10_save_session_witness :
    ({ witnessApp with input := "/quit" } : App).messages = []
    ∧ trimChars ("/quit" : String) = "/quit"
    ∧ submit_input witnessSubmitEnv { witnessApp with input := "/quit" }
        = ({ { witnessApp with input := "/quit" } with should_quit := true }, none) :=
  ⟨by decide, by decide,
   (claim_C10_save_session { witnessApp with input := "/quit" } 0 witnessSubmitEnv
      (by decide)).2.1 (by decide)⟩

/-! ### Claim C8: the /clear command -/

theorem save_session_fst_frame (now : Int) (s : App) :
    (save_session now s).1 = { s with session := (save_session now s).1.session } := by
  rw [save_session]
  split_ifs <;> rfl

/-- C8.  Submitting `/clear` empties the UI message list, truncates the wire
log to the system prompt alone (length 1), clears the token-usage pair,
replaces the session with a freshly created one (id = the current timestamp,
hence a new id whenever the timestamp string differs from the old id), clears
the input line — and modifies nothing else: state, history, error, provider,
API key, configuration, permission modal, ephemeral grants, pending work and
the cancel flag are untouched. -/
theorem claim_C8_clear (s : App) (env : SubmitEnv) (sys : Wire) (rest : List Wire)
    (hinput : trimChars s.input = "/clear") (happi : s.api_messages = sys :: rest) :
    (submit_input env s).1.messages = []
    ∧ (submit_input env s).1.api_messages = [sys]
    ∧ (submit_input env s).1.token_usage = none
    ∧ (submit_input env s).1.session = Session.new env.now
    ∧ (submit_input env s).1.input = ""
    ∧ (submit_input env s).1.input_cursor = 0
    ∧ (submit_input env s).1.state = s.state
    ∧ (submit_input env s).1.history = s.history
    ∧ (submit_input env s).1.history_pos = s.history_pos
    ∧ (submit_input env s).1.error = s.error
    ∧ (submit_input env s).1.config = s.config
    ∧ (submit_input env s).1.provider = s.provider
    ∧ (submit_input env s).1.api_key = s.api_key
    ∧ (submit_input env s).1.permission_modal = s.permission_modal
    ∧ (submit_input env s).1.temp_allowed_paths = s.temp_allowed_paths
    ∧ (submit_input env s).1.pending_response = s.pending_response
    ∧ (submit_input env s).1.pending_tool_calls = s.pending_tool_calls
    ∧ (submit_input env s).1.pending_tool_execution = s.pending_tool_execution
    ∧ (submit_input env s).1.cancel_flag = s.cancel_flag
    ∧ (submit_input env s).1.should_quit = s.should_quit
    ∧ (toString env.now ≠ s.session.id → (submit_input env s).1.session.id ≠ s.session.id) := by
  have hsub : (submit_input env s).1
      = { (save_session env.now s).1 with
          messages := []
          api_messages := (save_session env.now s).1.api_messages.take 1
          input := "", input_cursor := 0
          token_usage := none
          session := Session.new env.now } := by
    simp only [submit_input, hinput]
    rw [if_neg (by decide), if_neg (by decide), if_pos trivial]
  rw [hsub, save_session_fst_frame env.now s]
  refine ⟨rfl, ?_, rfl, rfl, rfl, rfl, rfl, rfl, rfl, rfl, rfl, rfl, rfl, rfl, rfl, rfl, rfl,
    rfl, rfl, rfl, ?_⟩
  · show s.api_messages.take 1 = [sys]
    rw [happi]
    rfl
  · intro hne
    exact hne

/-- C8 witness: a witness app holding a transcript and token usage, with
`/clear` typed, lands exactly on the cleared state. -/
theorem claim_C8_clear_witness :
    trimChars (" /clear " : String) = "/clear"
    ∧ ({ witnessApp with
          input := " /clear "
          messages := [⟨MessageRole.User, "q"⟩]
          api_messages := [Wire.system (get_system_prompt Mode.Coach), Wire.user "q"]
          token_usage := some (5, 7) } : App).api_messages
        = Wire.system (get_system_prompt Mode.Coach) :: [Wire.user "q"]
    ∧ (submit_input witnessSubmitEnv
        { witnessApp with
            input := " /clear "
            messages := [⟨MessageRole.User, "q"⟩]
            api_messages := [Wire.system (get_system_prompt Mode.Coach), Wire.user "q"]
            token_usage := some (5, 7) }).1.api_messages
        = [Wire.system (get_system_prompt Mode.Coach)] :=
  ⟨by decide, by decide,
   (claim_C8_clear
      { witnessApp with
          input := " /clear "
          messages := [⟨MessageRole.User, "q"⟩]
          api_messages := [Wire.system (get_system_prompt Mode.Coach), Wire.user "q"]
          token_usage := some (5, 7) }
      witnessSubmitEnv (Wire.system (get_system_prompt Mode.Coach)) [Wire.user "q"]
      (by decide) (by decide)).2.1⟩

/-! ### Claim C2: model-call failure rollback -/

theorem poll_api_error_eq (tenv : TickEnv) (emsg : String) (s : App)
    (hstate : s.state ≠ AppState.Idle) (hcancel : s.cancel_flag = false)
    (hrx : s.pending_response = true) :
    poll_api_response tenv (Recv.got (Except.error emsg)) s
      = ({ s with
            pending_response := false
            error := some ("API error: " ++ emsg)
            api_messages := s.api_messages.dropLast
            state := AppState.Idle }, none) := by
  rw [poll_api_response, if_neg hstate, if_neg (by rw [hcancel]; exact Bool.false_ne_true),
    if_neg (by rw [hrx]; exact fun hc => Bool.noConfusion hc)]

theorem submit_input_default (env : SubmitEnv) (s : App)
    (h : isPlainMessage (trimChars s.input)) :
    submit_input env s
      = (start_api_call
          { s with
              history := if s.history.getLast? = some (trimChars s.input) then s.history
                else s.history ++ [trimChars s.input]
              history_pos := (if s.history.getLast? = some (trimChars s.input) then s.history
                else s.history ++ [trimChars s.input]).length
              messages := (s.messages ++ [⟨MessageRole.User, trimChars s.input⟩])
                ++ (expand_file_refs env.fs (trimChars s.input)).files_read.map (fun pr =>
                  ⟨MessageRole.Tool "read_file" (some pr.1), String.mk (List.replicate pr.2 '\n')⟩)
              api_messages := s.api_messages
                ++ [Wire.user (expand_file_refs env.fs (trimChars s.input)).text]
              input := "", input_cursor := 0
              state := AppState.Thinking }, none) := by
  obtain ⟨h1, h2, h3, h4, h5, h6, h7, h8, h9, h10, h11⟩ := h
  rw [submit_input]
  rw [if_neg h1]
  rw [if_neg (by rintro (hx | hx | hx); exacts [h2 hx, h3 hx, h4 hx])]
  rw [if_neg h5, if_neg h6, if_neg h7, if_neg h8]
  rw [if_neg (by rw [h9]; exact Bool.false_ne_true)]
  rw [if_neg (by rw [h10]; exact Bool.false_ne_true)]
  rw [if_neg (by rw [h11]; exact Bool.false_ne_true)]

/-- C2 (amended).  When the in-flight model call completes with an error the
controller records `"API error: …"` for display, pops the *last* wire
message, transitions to Idle, and leaves the UI message list unchanged.  The
popped message is the unanswered user wire message exactly when the failing
call is the one issued directly by `submit_input` (then the wire log rolls
back to its pre-submit value); a model call issued to feed tool results back
pops the last tool-result message instead. -/
theorem claim_C2_api_error (tenv : TickEnv) (emsg : String) (s : App)
    (hstate : s.state ≠ AppState.Idle) (hcancel : s.cancel_flag = false)
    (hrx : s.pending_response = true) :
    poll_api_response tenv (Recv.got (Except.error emsg)) s
      = ({ s with
            pending_response := false
            error := some ("API error: " ++ emsg)
            api_messages := s.api_messages.dropLast
            state := AppState.Idle }, none)
    ∧ (poll_api_response tenv (Recv.got (Except.error emsg)) s).1.messages = s.messages
    ∧ (∀ (senv : SubmitEnv) (s0 : App), isPlainMessage (trimChars s0.input) →
        (poll_api_response tenv (Recv.got (Except.error emsg)) (submit_input senv s0).1).1.api_messages
            = s0.api_messages
        ∧ (poll_api_response tenv (Recv.got (Except.error emsg)) (submit_input senv s0).1).1.messages
            = (submit_input senv s0).1.messages) := by
  refine ⟨poll_api_error_eq tenv emsg s hstate hcancel hrx, ?_, ?_⟩
  · rw [poll_api_error_eq tenv emsg s hstate hcancel hrx]
  · intro senv s0 hplain
    rw [submit_input_default senv s0 hplain]
    rw [poll_api_error_eq tenv emsg _ (by exact fun hc => AppState.noConfusion hc) rfl rfl]
    constructor
    · show ((s0.api_messages
          ++ [Wire.user (expand_file_refs senv.fs (trimChars s0.input)).text]).dropLast) = _
      exact List.dropLast_concat ..
    · rfl

/-- C2 witness: a Thinking state with a pending response and a trailing user
wire message rolls back exactly that message on `"boom"`. -/
theorem claim_C2_api_error_witness :
    ({ witnessApp with
        state := AppState.Thinking
        pending_response := true
        api_messages := witnessApp.api_messages ++ [Wire.user "hi"] } : App).state ≠ AppState.Idle
    ∧ poll_api_response witnessTickEnv (Recv.got (Except.error "boom"))
        { witnessApp with
            state := AppState.Thinking
            pending_response := true
            api_messages := witnessApp.api_messages ++ [Wire.user "hi"] }
      = ({ { witnessApp with
              state := AppState.Thinking
              pending_response := true
              api_messages := witnessApp.api_messages ++ [Wire.user "hi"] } with
            pending_response := false
            error := some ("API error: " ++ "boom")
            api_messages := (witnessApp.api_messages ++ [Wire.user "hi"]).dropLast
            state := AppState.Idle }, none) :=
  ⟨by decide,
   (claim_C2_api_error witnessTickEnv "boom"
      { witnessApp with
          state := AppState.Thinking
          pending_response := true
          api_messages := witnessApp.api_messages ++ [Wire.user "hi"] }
      (by decide) (by decide) (by decide)).1⟩

/-- C2 counterexample: after `submit "hi"`, a model response with one tool
call, and that tool's result, the follow-up model call fails; the controller
pops the *tool-result* wire message, not the unanswered user message — the
wire log still contains `user "hi"` and ends with the assistant tool-call
message, so the log is not rolled back one user message as claimed. -/
theorem claim_C2_counterexample :
    (runEvents { witnessApp with input := "hi" }
        [Event.keyEnter witnessTickEnv none witnessSubmitEnv,
         Event.pollApi witnessTickEnv (Recv.got (Except.ok
           { content := none
             tool_calls := some [⟨"c1", "read_file", [("path", JPrim.jstr "a")]⟩]
             usage := none })),
         Event.pollTool witnessTickEnv (Recv.got "RESULT"),
         Event.pollApi witnessTickEnv (Recv.got (Except.error "boom"))]).api_messages
      = [Wire.system (get_system_prompt Mode.Coach), Wire.user "hi",
         Wire.assistantToolCalls [⟨"c1", "read_file", [("path", JPrim.jstr "a")]⟩]]
    ∧ (runEvents { witnessApp with input := "hi" }
        [Event.keyEnter witnessTickEnv none witnessSubmitEnv,
         Event.pollApi witnessTickEnv (Recv.got (Except.ok
           { content := none
             tool_calls := some [⟨"c1", "read_file", [("path", JPrim.jstr "a")]⟩]
             usage := none })),
         Event.pollTool witnessTickEnv (Recv.got "RESULT"),
         Event.pollApi witnessTickEnv (Recv.got (Except.error "boom"))]).error
      = some "API error: boom" := by
  refine ⟨by decide, by decide⟩

/-! ### Claim C1: the Idle / pending-work invariant -/

theorem controllerInv_of_fields (s t : App)
    (h1 : t.state = s.state) (h2 : t.pending_response = s.pending_response)
    (h3 : t.pending_tool_calls = s.pending_tool_calls)
    (h4 : t.pending_tool_execution = s.pending_tool_execution)
    (h5 : t.permission_modal = s.permission_modal)
    (hInv : ControllerInv s) : ControllerInv t := by
  rw [ControllerInv, h1, h2, h3, h4, h5]
  exact hInv

theorem controllerInv_shapeIdle (t : App) (h1 : t.state = AppState.Idle)
    (h2 : t.pending_response = false) (h3 : t.pending_tool_calls = [])
    (h4 : t.pending_tool_execution = none) (h5 : t.permission_modal = none) :
    ControllerInv t := by
  rw [ControllerInv, h1, h2, h3, h4, h5]
  simp

theorem controllerInv_shapeThinking (t : App) (h1 : t.state = AppState.Thinking)
    (h2 : t.pending_response = true) (h3 : t.pending_tool_calls = [])
    (h4 : t.pending_tool_execution = none) (h5 : t.permission_modal = none) :
    ControllerInv t := by
  rw [ControllerInv, h1, h2, h3, h4, h5]
  simp

theorem controllerInv_shapeModal (t : App) (h1 : t.state ≠ AppState.Idle)
    (h2 : t.pending_response = false) (h3 : t.pending_tool_calls ≠ [])
    (h4 : t.pending_tool_execution = none) (h5 : t.permission_modal ≠ none) :
    ControllerInv t := by
  rw [ControllerInv, h2, h4]
  refine ⟨?_, ?_, ?_, ?_⟩
  · constructor
    · intro hx
      exact absurd hx h1
    · rintro ⟨_, _, _, hm⟩
      exact absurd hm h5
  · intro hx
    exact Bool.noConfusion hx
  · intro hx
    exact absurd rfl hx
  · intro _
    exact ⟨rfl, rfl, h3⟩

theorem controllerInv_shapeExec (t : App) (h1 : t.state ≠ AppState.Idle)
    (h2 : t.pending_response = false) (h4 : t.pending_tool_execution ≠ none)
    (h5 : t.permission_modal = none) : ControllerInv t := by
  rw [ControllerInv, h2, h5]
  refine ⟨?_, ?_, ?_, ?_⟩
  · constructor
    · intro hx
      exact absurd hx h1
    · rintro ⟨_, hm, _, _⟩
      exact absurd hm h4
  · intro hx
    exact Bool.noConfusion hx
  · intro _
    exact ⟨rfl, rfl⟩
  · intro hx
    exact absurd rfl hx

theorem controllerInv_shapePending (t : App) (h1 : t.state ≠ AppState.Idle)
    (h2 : t.pending_response = false) (h3 : t.pending_tool_calls ≠ [])
    (h4 : t.pending_tool_execution = none) (h5 : t.permission_modal = none) :
    ControllerInv t := by
  rw [ControllerInv, h2, h4, h5]
  refine ⟨?_, ?_, ?_, ?_⟩
  · constructor
    · intro hx
      exact absurd hx h1
    · rintro ⟨_, _, hq, _⟩
      exact absurd hq h3
  · intro hx
    exact Bool.noConfusion hx
  · intro hx
    exact absurd rfl hx
  · intro hx
    exact absurd rfl hx

theorem inv_process_pending_tools (env : TickEnv) (s : App)
    (hrx : s.pending_response = false) (hmodal : s.permission_modal = none)
    (hexec : s.pending_tool_execution = none) (hstate : s.state ≠ AppState.Idle) :
    ControllerInv (process_pending_tools env s) := by
  rw [process_pending_tools]
  rw [if_neg (by rw [hexec]; simp)]
  cases hq : s.pending_tool_calls with
  | nil =>
    exact controllerInv_shapeThinking _ rfl rfl rfl (by simp [start_api_call, hexec])
      (by simp [start_api_call, hmodal])
  | cons tc rest =>
    cases hperm : (if tc.name = "bash" then check_bash_permission env s.temp_allowed_paths tc
        else none) with
    | some modal =>
      dsimp only
      rw [hperm]
      exact controllerInv_shapeModal _ hstate hrx (by simp) hexec (by simp)
    | none =>
      dsimp only
      rw [hperm]
      exact controllerInv_shapeExec _ (by simp) hrx (by simp) hmodal

theorem inv_modal_update (s : App) (m m' : PermissionModal)
    (hm : s.permission_modal = some m) (hInv : ControllerInv s) :
    ControllerInv { s with permission_modal := some m' } := by
  obtain ⟨hiff, hb, hc, hd⟩ := hInv
  obtain ⟨h2, h4, h3⟩ := hd (by rw [hm]; simp)
  exact controllerInv_shapeModal _
    (by
      intro hx
      have := hiff.mp hx
      rw [hm] at this
      exact Option.noConfusion this.2.2.2)
    h2 h3 h4 (by simp)

theorem inv_modal_select (env : TickEnv) (err : Option String) (s : App)
    (hInv : ControllerInv s) : ControllerInv (modal_select env err s) := by
  rw [modal_select]
  cases hm : s.permission_modal with
  | none => exact hInv
  | some modal =>
    obtain ⟨hiff, hb, hc, hd⟩ := hInv
    obtain ⟨hrx, hexec, hq⟩ := hd (by rw [hm]; simp)
    have hstate : s.state ≠ AppState.Idle := by
      intro hx
      have := hiff.mp hx
      rw [hm] at this
      exact Option.noConfusion this.2.2.2
    dsimp only
    by_cases h01 : modal.selected = 0 ∨ modal.selected = 1
    · rw [if_pos h01]
      cases err with
      | none =>
        exact inv_process_pending_tools env _ hrx (by simp) hexec hstate
      | some e =>
        exact inv_process_pending_tools env _ hrx (by simp) hexec hstate
    · rw [if_neg h01]
      by_cases h2 : modal.selected = 2
      · rw [if_pos h2]
        exact inv_process_pending_tools env _ hrx (by simp) hexec hstate
      · rw [if_neg h2]
        by_cases h3 : modal.selected = 3
        · rw [if_pos h3]
          by_cases hq2 : s.pending_tool_calls.drop 1 = []
          · rw [if_pos (by simpa using hq2)]
            exact controllerInv_shapeThinking _ rfl rfl
              (by simp [start_api_call, hq2]) (by simp [start_api_call, hexec])
              (by simp [start_api_call])
          · rw [if_neg (by simpa using hq2)]
            exact inv_process_pending_tools env _ hrx (by simp) hexec hstate
        · rw [if_neg h3]
          exact controllerInv_shapePending _ hstate hrx hq hexec (by simp)

theorem inv_modal_cancel (env : TickEnv) (s : App) (hInv : ControllerInv s) :
    ControllerInv (modal_cancel env s) := by
  rw [modal_cancel]
  cases hm : s.permission_modal with
  | none => exact hInv
  | some m =>
    exact inv_modal_select env none _ (inv_modal_update s m _ hm hInv)

theorem inv_abort_request (s : App) (hmodal : s.permission_modal = none)
    (hInv : ControllerInv s) : ControllerInv (abort_request s) := by
  rw [abort_request]
  by_cases hidle : s.state = AppState.Idle
  · rw [if_pos hidle]
    exact hInv
  · rw [if_neg hidle]
    exact controllerInv_shapeIdle _ rfl rfl rfl rfl (by simpa using hmodal)

theorem inv_handle_tool_calls (env : TickEnv) (tcs : List ToolCall) (s : App)
    (hrx : s.pending_response = false) (hmodal : s.permission_modal = none)
    (hexec : s.pending_tool_execution = none) (hstate : s.state ≠ AppState.Idle) :
    ControllerInv (handle_tool_calls env tcs s) := by
  rw [handle_tool_calls]
  exact inv_process_pending_tools env _ hrx (by simpa using hmodal)
    (by simpa using hexec) (by simpa using hstate)

theorem inv_poll_api (env : TickEnv) (r : Recv (Except String ApiOk)) (s : App)
    (hInv : ControllerInv s) : ControllerInv (poll_api_response env r s).1 := by
  rw [poll_api_response.eq_def]
  by_cases hidle : s.state = AppState.Idle
  · rw [if_pos hidle]
    exact hInv
  rw [if_neg hidle]
  by_cases hcf : s.cancel_flag
  · rw [if_pos hcf]
    exact hInv
  rw [if_neg hcf]
  by_cases hrx : s.pending_response = false
  · rw [if_pos hrx]
    exact hInv
  rw [if_neg hrx]
  have hrxT : s.pending_response = true := by
    cases hx : s.pending_response
    · exact absurd hx hrx
    · rfl
  obtain ⟨hq, hexec, hmodal⟩ := hInv.2.1 hrxT
  cases r with
  | empty =>
    exact hInv
  | disconnected =>
    dsimp only
    rw [if_neg hcf]
    exact controllerInv_shapeIdle _ rfl rfl hq hexec hmodal
  | got result =>
    dsimp only
    cases result with
    | error e =>
      exact controllerInv_shapeIdle _ rfl rfl hq hexec hmodal
    | ok resp =>
      dsimp only
      cases husage : resp.usage with
      | some u =>
        cases htc : resp.tool_calls with
        | some tcs =>
          exact inv_handle_tool_calls env tcs _ rfl hmodal hexec hidle
        | none =>
          refine controllerInv_shapeIdle _ ?_ ?_ ?_ ?_ ?_ <;>
            (rw [save_session_fst_frame]
             try exact hq
             try exact hexec
             try exact hmodal)
      | none =>
        cases htc : resp.tool_calls with
        | some tcs =>
          exact inv_handle_tool_calls env tcs _ rfl hmodal hexec hidle
        | none =>
          refine controllerInv_shapeIdle _ ?_ ?_ ?_ ?_ ?_ <;>
            (rw [save_session_fst_frame]
             try exact hq
             try exact hexec
             try exact hmodal)

theorem inv_poll_tool (env : TickEnv) (r : Recv String) (s : App)
    (hInv : ControllerInv s) (hr : r ≠ Recv.disconnected) :
    ControllerInv (poll_tool_result env r s) := by
  rw [poll_tool_result.eq_def]
  cases hexec : s.pending_tool_execution with
  | none => exact hInv
  | some inflight =>
    obtain ⟨hmodal, hrx⟩ := hInv.2.2.1 (by rw [hexec]; simp)
    have hstate : s.state ≠ AppState.Idle := by
      intro hx
      have := hInv.1.mp hx
      rw [hexec] at this
      exact Option.noConfusion this.2.1
    dsimp only
    cases r with
    | empty => exact hInv
    | got result =>
      exact inv_process_pending_tools env _ hrx hmodal rfl hstate
    | disconnected => exact absurd rfl hr

theorem inv_submit_input (env : SubmitEnv) (s : App) (hidle : s.state = AppState.Idle)
    (hInv : ControllerInv s) : ControllerInv (submit_input env s).1 := by
  obtain ⟨hrx, hexec, hq, hmodal⟩ := hInv.1.mp hidle
  have hsave : ∀ t : Int, ControllerInv (save_session t s).1 := by
    intro t
    exact controllerInv_of_fields s _ (by rw [save_session_fst_frame])
      (by rw [save_session_fst_frame]) (by rw [save_session_fst_frame])
      (by rw [save_session_fst_frame]) (by rw [save_session_fst_frame]) hInv
  rw [submit_input]
  by_cases h1 : trimChars s.input = ""
  · rw [if_pos h1]
    exact hInv
  rw [if_neg h1]
  by_cases h2 : trimChars s.input = "/quit" ∨ trimChars s.input = "/exit"
      ∨ trimChars s.input = "/q"
  · rw [if_pos h2]
    exact controllerInv_of_fields _ _ rfl rfl rfl rfl rfl (hsave env.now)
  rw [if_neg h2]
  by_cases h3 : trimChars s.input = "/clear"
  · rw [if_pos h3]
    exact controllerInv_of_fields _ _ rfl rfl rfl rfl rfl (hsave env.now)
  rw [if_neg h3]
  by_cases h4 : trimChars s.input = "/sessions"
  · rw [if_pos h4]
    exact controllerInv_of_fields s _ rfl rfl rfl rfl rfl hInv
  rw [if_neg h4]
  by_cases h5 : trimChars s.input = "/help"
  · rw [if_pos h5]
    exact controllerInv_of_fields s _ rfl rfl rfl rfl rfl hInv
  rw [if_neg h5]
  by_cases h6 : trimChars s.input = "/provider"
  · rw [if_pos h6]
    exact controllerInv_of_fields s _ rfl rfl rfl rfl rfl hInv
  rw [if_neg h6]
  by_cases h7 : strStartsWith (trimChars s.input) "/provider " = true
  · rw [if_pos h7]
    dsimp only
    cases lookupProvider s.config.providers (trimChars (strDrop (trimChars s.input) 10)) with
    | some newProvider =>
      dsimp only
      cases (match newProvider.api_key with
             | some k => some k
             | none => env.envKey newProvider.api_key_env) with
      | some key => exact controllerInv_of_fields s _ rfl rfl rfl rfl rfl hInv
      | none => exact controllerInv_of_fields s _ rfl rfl rfl rfl rfl hInv
    | none => exact controllerInv_of_fields s _ rfl rfl rfl rfl rfl hInv
  rw [if_neg h7]
  by_cases h8 : strStartsWith (trimChars s.input) "/key " = true
  · rw [if_pos h8]
    by_cases hk : trimChars (strDrop (trimChars s.input) 5) = ""
    · rw [if_pos hk]
      exact controllerInv_of_fields s _ rfl rfl rfl rfl rfl hInv
    · rw [if_neg hk]
      dsimp only
      cases lookupProvider s.config.providers s.config.default_provider with
      | some p => exact controllerInv_of_fields s _ rfl rfl rfl rfl rfl hInv
      | none => exact controllerInv_of_fields s _ rfl rfl rfl rfl rfl hInv
  rw [if_neg h8]
  by_cases h9 : strStartsWith (trimChars s.input) "/load " = true
  · rw [if_pos h9]
    dsimp only
    cases env.loadSession (trimChars (strDrop (trimChars s.input) 6)) with
    | ok sess => exact controllerInv_of_fields _ _ rfl rfl rfl rfl rfl (hsave env.now)
    | error e => exact controllerInv_of_fields s _ rfl rfl rfl rfl rfl hInv
  rw [if_neg h9]
  exact controllerInv_shapeThinking _ rfl rfl (by simp [start_api_call, hq])
    (by simp [start_api_call, hexec]) (by simp [start_api_call, hmodal])

theorem inv_step (s : App) (e : Event) (hInv : ControllerInv s)
    (hgood : e.isToolCrash = false) : ControllerInv (step s e).1 := by
  have hclear : ControllerInv (clearError s) :=
    controllerInv_of_fields s _ rfl rfl rfl rfl rfl hInv
  cases e with
  | keyEnter tenv saveErr senv =>
    rw [step]
    by_cases hm : (clearError s).permission_modal.isSome
    · rw [if_pos hm]
      exact inv_modal_select tenv saveErr _ hclear
    · rw [if_neg hm]
      by_cases hs : (clearError s).state ≠ AppState.Idle
      · rw [if_pos hs]
        exact hclear
      · rw [if_neg hs]
        exact inv_submit_input senv _ (by simpa using hs) hclear
  | keyEsc tenv =>
    rw [step]
    by_cases hm : (clearError s).permission_modal.isSome
    · rw [if_pos hm]
      exact inv_modal_cancel tenv _ hclear
    · rw [if_neg hm]
      by_cases hs : (clearError s).state ≠ AppState.Idle
      · rw [if_pos hs]
        exact inv_abort_request _ (by simpa using hm) hclear
      · rw [if_neg hs]
        exact controllerInv_of_fields _ _ rfl rfl rfl rfl rfl hclear
  | keyUp =>
    rw [step, modal_up]
    cases hm : (clearError s).permission_modal with
    | none => exact hclear
    | some m =>
      dsimp only
      split_ifs with hsel
      · exact inv_modal_update (clearError s) m _ hm hclear
      · exact hclear
  | keyDown =>
    rw [step, modal_down]
    cases hm : (clearError s).permission_modal with
    | none => exact hclear
    | some m =>
      dsimp only
      split_ifs with hsel
      · exact inv_modal_update (clearError s) m _ hm hclear
      · exact hclear
  | pollApi tenv r =>
    rw [step]
    by_cases hidle : s.state = AppState.Idle
    · rw [if_pos hidle]
      exact hInv
    · rw [if_neg hidle]
      exact inv_poll_api tenv r s hInv
  | pollTool tenv r =>
    rw [step]
    by_cases hidle : s.state = AppState.Idle
    · rw [if_pos hidle]
      exact hInv
    · rw [if_neg hidle]
      refine inv_poll_tool tenv r s hInv ?_
      intro hr
      rw [hr] at hgood
      exact Bool.noConfusion hgood

theorem inv_app_new (config : Config) (envKey : String → Option String) (ctx : Option String)
    (restore : Option Session) (now : Int) (a : App)
    (hnew : App.new config envKey ctx restore now = Except.ok a) : ControllerInv a := by
  rw [App.new] at hnew
  cases hl : lookupProvider config.providers config.default_provider with
  | none =>
    rw [hl] at hnew
    exact Except.noConfusion hnew
  | some provider =>
    rw [hl] at hnew
    simp only at hnew
    cases hk : (match provider.api_key with
                | some k => some k
                | none => envKey provider.api_key_env) with
    | none =>
      rw [hk] at hnew
      exact Except.noConfusion hnew
    | some key =>
      rw [hk] at hnew
      simp only at hnew
      obtain rfl := (Except.ok.inj hnew).symm
      exact controllerInv_shapeIdle _ rfl rfl rfl rfl rfl

theorem inv_runEvents (s : App) (evs : List Event) (hInv : ControllerInv s)
    (hgood : ∀ e ∈ evs, e.isToolCrash = false) : ControllerInv (runEvents s evs) := by
  induction evs generalizing s with
  | nil => exact hInv
  | cons e es ih =>
    rw [runEvents]
    exact ih (step s e).1 (inv_step s e hInv (hgood e (List.mem_cons_self e es)))
      (fun x hx => hgood x (List.mem_cons_of_mem e hx))

/-- C1 (amended).  Starting from any state `App::new` produces and running
any sequence of the controller events (submit, polls, modal resolution,
abort) that contains no tool-worker crash (no disconnected tool channel),
the state is Idle exactly when no model-response receiver, no tool-execution
receiver, no queued tool calls and no permission modal are pending.  A
tool-worker crash breaks the equivalence: the crash handler goes Idle
without clearing the queued tool calls (see the counterexample). -/
theorem claim_C1_idle_iff (config : Config) (envKey : String → Option String)
    (ctx : Option String) (restore : Option Session) (now : Int) (a : App)
    (hnew : App.new config envKey ctx restore now = Except.ok a)
    (evs : List Event) (hgood : ∀ e ∈ evs, e.isToolCrash = false) :
    (runEvents a evs).state = AppState.Idle
      ↔ ((runEvents a evs).pending_response = false
          ∧ (runEvents a evs).pending_tool_execution = none
          ∧ (runEvents a evs).pending_tool_calls = []
          ∧ (runEvents a evs).permission_modal = none) :=
  (inv_runEvents a evs (inv_app_new config envKey ctx restore now a hnew) hgood).1

/-- C1 witness: from the fresh witness app, after a submit and a model
response carrying one `read_file` tool call (no crash events), the state is
`ToolCall` — not Idle — and indeed a tool-execution receiver is pending. -/
theorem claim_C1_idle_iff_witness :
    App.new witnessConfig (fun _ => none) none none 100 = Except.ok witnessApp
    ∧ ((runEvents witnessApp
          [Event.keyEnter witnessTickEnv none witnessSubmitEnv]).state = AppState.Idle
        ↔ ((runEvents witnessApp
              [Event.keyEnter witnessTickEnv none witnessSubmitEnv]).pending_response = false
            ∧ (runEvents witnessApp
                [Event.keyEnter witnessTickEnv none witnessSubmitEnv]).pending_tool_execution
                = none
            ∧ (runEvents witnessApp
                [Event.keyEnter witnessTickEnv none witnessSubmitEnv]).pending_tool_calls = []
            ∧ (runEvents witnessApp
                [Event.keyEnter witnessTickEnv none witnessSubmitEnv]).permission_modal
                = none)) :=
  ⟨rfl,
   claim_C1_idle_iff witnessConfig (fun _ => none) none none 100 witnessApp rfl
     [Event.keyEnter witnessTickEnv none witnessSubmitEnv] (by intro e he; fin_cases he; rfl)⟩

/-- C1 counterexample: with two queued tool calls, a tool-worker crash
(disconnected tool channel) sends the controller to Idle while
`pending_tool_calls` still holds the second call — `AppState == Idle` holds
but the pending-tool-call queue is not empty, refuting the claimed
equivalence over the full event alphabet. -/
theorem claim_C1_counterexample :
    App.new witnessConfig (fun _ => none) none none 100 = Except.ok witnessApp
    ∧ (runEvents { witnessApp with input := "hi" }
        [Event.keyEnter witnessTickEnv none witnessSubmitEnv,
         Event.pollApi witnessTickEnv (Recv.got (Except.ok
           { content := none
             tool_calls := some [⟨"c1", "read_file", [("path", JPrim.jstr "a")]⟩,
               ⟨"c2", "read_file", [("path", JPrim.jstr "b")]⟩]
             usage := none })),
         Event.pollTool witnessTickEnv Recv.disconnected]).state = AppState.Idle
    ∧ (runEvents { witnessApp with input := "hi" }
        [Event.keyEnter witnessTickEnv none witnessSubmitEnv,
         Event.pollApi witnessTickEnv (Recv.got (Except.ok
           { content := none
             tool_calls := some [⟨"c1", "read_file", [("path", JPrim.jstr "a")]⟩,
               ⟨"c2", "read_file", [("path", JPrim.jstr "b")]⟩]
             usage := none })),
         Event.pollTool witnessTickEnv Recv.disconnected]).pending_tool_calls
      = [⟨"c2", "read_file", [("path", JPrim.jstr "b")]⟩] := by
  refine ⟨rfl, by decide, by decide⟩

end Hal
